import Mathlib

/-!
Verification development for the aaf2resolve canonical-model builder and
validator.  The Python sources are embedded shallowly:

* JSON values become the inductive `Json` (numbers as rationals, objects as
  association lists in insertion order with unique keys, matching documents
  produced by `json.load`);
* the draft-07 schema returned by `get_canonical_json_schema` together with
  `jsonschema.Draft7Validator.iter_errors` becomes the executable checker
  `canonical_schema_errors` (one function per schema definition; for an
  instance of the wrong type only the `type` error is produced and no other
  keyword fires, `required` yields one error per missing key,
  `additionalProperties: false` yields one error per object with extras,
  `oneOf` yields a single error when no branch matches, exactly as the
  jsonschema library does);
* Python-level failures (`AttributeError` from `.get` on a non-dict,
  `TypeError` from iterating or comparing incomparable values) become the
  `Except PyExc` monad, so code paths that raise are visible as `.error`.

Error messages carried in reports are rendered by simple helpers; no theorem
below inspects message text, only codes, paths and the report structure.
-/

inductive Json where
  | null : Json
  | bool : Bool → Json
  | num : ℚ → Json
  | str : String → Json
  | arr : List Json → Json
  | obj : List (String × Json) → Json

/-- Python exceptions that the embedded code can raise. -/
inductive PyExc where
  | attributeError : PyExc
  | typeError : PyExc
deriving DecidableEq

def Json.isStr : Json → Bool
  | .str _ => true
  | _ => false

def Json.isObj : Json → Bool
  | .obj _ => true
  | _ => false

def Json.isArr : Json → Bool
  | .arr _ => true
  | _ => false

def Json.isNum : Json → Bool
  | .num _ => true
  | _ => false

/-- Draft-7 `integer`: ints and floats with zero fractional part. -/
def Json.isInt : Json → Bool
  | .num q => q.den == 1
  | _ => false

def Json.isBool : Json → Bool
  | .bool _ => true
  | _ => false

def Json.isNull : Json → Bool
  | .null => true
  | _ => false

/-- Equality of a JSON value with a given string literal. -/
def jStrEq (j : Json) (s : String) : Bool :=
  match j with
  | .str t => t == s
  | _ => false

/-- Python truthiness of a JSON value. -/
def pyTruthy : Json → Bool
  | .null => false
  | .bool b => b
  | .num q => q != 0
  | .str s => s != ""
  | .arr l => !l.isEmpty
  | .obj kvs => !kvs.isEmpty

/-- Object member lookup (objects carry unique keys). -/
def jGet (kvs : List (String × Json)) (k : String) : Option Json :=
  (kvs.find? (fun kv => kv.1 == k)).map (fun kv => kv.2)

def jHas (kvs : List (String × Json)) (k : String) : Bool :=
  kvs.any (fun kv => kv.1 == k)

/-- `o.get(k, d)`: raises `AttributeError` unless `o` is a dict. -/
def pyGetD (o : Json) (k : String) (d : Json) : Except PyExc Json :=
  match o with
  | .obj kvs => .ok ((jGet kvs k).getD d)
  | _ => .error .attributeError

/-- `enumerate(x)` item list: lists yield elements, strings yield 1-char
strings, dicts yield their keys; other values raise `TypeError`. -/
def pyEnumerate : Json → Except PyExc (List Json)
  | .arr l => .ok l
  | .str s => .ok (s.toList.map (fun c => Json.str c.toString))
  | .obj kvs => .ok (kvs.map (fun kv => Json.str kv.1))
  | _ => .error .typeError

/-- `d.items()`: only dicts have `.items`. -/
def pyItemsPairs : Json → Except PyExc (List (String × Json))
  | .obj kvs => .ok kvs
  | _ => .error .attributeError

/-- Python `<` on JSON values: numbers and bools are mutually comparable
(`True` counts as 1), strings compare lexicographically by code point;
other combinations raise `TypeError`.  (Python also compares two lists
elementwise; the validator only ever sorts keyframe `t` values, which are
numbers in every document a theorem below touches, so that case is omitted
and mapped to `TypeError`.) -/
def pyLtJ : Json → Json → Except PyExc Bool
  | .num a, .num b => .ok (decide (a < b))
  | .num a, .bool b => .ok (decide (a < (if b then (1 : ℚ) else 0)))
  | .bool a, .num b => .ok (decide ((if a then (1 : ℚ) else 0) < b))
  | .bool a, .bool b => .ok (decide ((if a then (1 : ℚ) else 0) < (if b then (1 : ℚ) else 0)))
  | .str a, .str b => .ok (decide (a < b))
  | _, _ => .error .typeError

/-- `times == sorted(times)`: true iff no adjacent inversion; raises
`TypeError` iff some adjacent pair is incomparable (comparability of the
supported values is a property of their types, so this coincides with
`sorted` raising). The whole list is traversed either way, as `sorted`
completes before the equality test. -/
def pyTimesCheck : List Json → Except PyExc Bool
  | [] => .ok true
  | [_] => .ok true
  | a :: b :: rest => do
      let lt ← pyLtJ b a
      let restOk ← pyTimesCheck (b :: rest)
      return (!lt && restOk)

/-- Python `str.strip()` (whitespace both ends). -/
def pyStrip (s : String) : String :=
  ⟨((s.toList.dropWhile Char.isWhitespace).reverse.dropWhile Char.isWhitespace).reverse⟩

/-- Python substring test `needle in hay`. -/
def pyInStr (needle hay : String) : Bool :=
  let n := needle.toList
  let h := hay.toList
  (List.range (h.length + 1)).any (fun i => n.isPrefixOf (h.drop i))

/-- Python `s.startswith(pre)`. -/
def strStartsWith (s pre : String) : Bool :=
  pre.toList.isPrefixOf s.toList

-- ---------------------------------------------------------------------------
-- Schema checker: get_canonical_json_schema + Draft7Validator.iter_errors
-- ---------------------------------------------------------------------------

inductive PathElem where
  | key : String → PathElem
  | idx : Nat → PathElem
deriving DecidableEq

/-- The jsonschema keyword that produced an error. -/
inductive SKind where
  | required | typeK | addProps | enum | minimum | exclusiveMinimum
  | pattern | oneOf
deriving DecidableEq

/-- A raw jsonschema error: keyword, absolute path, and (for `required`)
the missing key recovered from the message. -/
structure SErr where
  validator : SKind
  path : List PathElem
  missing : Option String
deriving DecidableEq

def typeSErr (p : List PathElem) : SErr := ⟨.typeK, p, none⟩

def requiredErrs (keys : List String) (kvs : List (String × Json))
    (p : List PathElem) : List SErr :=
  keys.filterMap (fun k => if jHas kvs k then none else some ⟨.required, p, some k⟩)

def addPropsErr (allowed : List String) (kvs : List (String × Json))
    (p : List PathElem) : List SErr :=
  if kvs.all (fun kv => allowed.contains kv.1) then [] else [⟨.addProps, p, none⟩]

/-- `{"type": "string"}` at a property. -/
def strTypeErrs (p : List PathElem) (j : Json) : List SErr :=
  if j.isStr then [] else [typeSErr p]

/-- `{"type": "boolean"}` at a property. -/
def boolTypeErrs (p : List PathElem) (j : Json) : List SErr :=
  if j.isBool then [] else [typeSErr p]

/-- `{"type": "integer", "minimum": m}`: the type check, plus the minimum
check which jsonschema applies to any numeric instance. -/
def intMinErrs (p : List PathElem) (m : ℚ) (j : Json) : List SErr :=
  (if j.isInt then [] else [typeSErr p]) ++
    (match j with
     | .num q => if q < m then [⟨.minimum, p, none⟩] else []
     | _ => [])

/-- `{"type": "number", "exclusiveMinimum": 0}`. -/
def numExclMinErrs (p : List PathElem) (j : Json) : List SErr :=
  (if j.isNum then [] else [typeSErr p]) ++
    (match j with
     | .num q => if q ≤ 0 then [⟨.exclusiveMinimum, p, none⟩] else []
     | _ => [])

/-- `oneOf [{"type": "string"}, {"type": "null"}]`. -/
def strOrNullErrs (p : List PathElem) (j : Json) : List SErr :=
  if j.isStr || j.isNull then [] else [⟨.oneOf, p, none⟩]

/-- `oneOf [{"type": "integer", "minimum": 0}, {"type": "null"}]`. -/
def nonnegIntOrNullErrs (p : List PathElem) (j : Json) : List SErr :=
  match j with
  | .null => []
  | .num q => if q.den == 1 && 0 ≤ q then [] else [⟨.oneOf, p, none⟩]
  | _ => [⟨.oneOf, p, none⟩]

/-- `oneOf [{"type": "number"}, {"type": "string"}, {"type": "null"}]`. -/
def numStrNullErrs (p : List PathElem) (j : Json) : List SErr :=
  if j.isNum || j.isStr || j.isNull then [] else [⟨.oneOf, p, none⟩]

/-- The regex `^ev_\d{4}$` (checked with `re.search`; the anchors make it a
whole-string match).  `\d` is modelled as the ASCII digits. -/
def evIdPattern (s : String) : Bool :=
  let cs := s.toList
  ['e', 'v', '_'].isPrefixOf cs && (cs.drop 3).length == 4 &&
    (cs.drop 3).all Char.isDigit

/-- Schema `keyframe` definition. -/
def checkKeyframe (p : List PathElem) (j : Json) : List SErr :=
  match j with
  | .obj kvs =>
      requiredErrs ["t", "v"] kvs p ++ addPropsErr ["t", "v"] kvs p ++
      (match jGet kvs "t" with
       | some v =>
           (if v.isNum then [] else [typeSErr (p ++ [.key "t"])]) ++
           (match v with
            | .num q => if q < 0 then [⟨.minimum, p ++ [.key "t"], none⟩] else []
            | _ => [])
       | none => []) ++
      (match jGet kvs "v" with
       | some v => if v.isNum || v.isStr then [] else [⟨.oneOf, p ++ [.key "v"], none⟩]
       | none => [])
  | _ => [typeSErr p]

/-- Schema `external_ref` definition. -/
def checkExtRef (p : List PathElem) (j : Json) : List SErr :=
  match j with
  | .obj kvs =>
      requiredErrs ["kind", "path"] kvs p ++ addPropsErr ["kind", "path"] kvs p ++
      (match jGet kvs "kind" with
       | some v =>
           strTypeErrs (p ++ [.key "kind"]) v ++
           (if jStrEq v "image" || jStrEq v "matte" || jStrEq v "unknown"
            then [] else [⟨.enum, p ++ [.key "kind"], none⟩])
       | none => []) ++
      (match jGet kvs "path" with
       | some v => strTypeErrs (p ++ [.key "path"]) v
       | none => [])
  | _ => [typeSErr p]

/-- Schema `effect` definition. -/
def checkEffect (p : List PathElem) (j : Json) : List SErr :=
  match j with
  | .obj kvs =>
      requiredErrs ["name", "on_filler", "parameters", "keyframes", "external_refs"] kvs p ++
      addPropsErr ["name", "on_filler", "parameters", "keyframes", "external_refs"] kvs p ++
      (match jGet kvs "name" with
       | some v => strTypeErrs (p ++ [.key "name"]) v
       | none => []) ++
      (match jGet kvs "on_filler" with
       | some v => boolTypeErrs (p ++ [.key "on_filler"]) v
       | none => []) ++
      (match jGet kvs "parameters" with
       | some (.obj pkvs) =>
           pkvs.flatMap (fun kv => numStrNullErrs (p ++ [.key "parameters", .key kv.1]) kv.2)
       | some _ => [typeSErr (p ++ [.key "parameters"])]
       | none => []) ++
      (match jGet kvs "keyframes" with
       | some (.obj kkvs) =>
           kkvs.flatMap (fun kv =>
             match kv.2 with
             | .arr items =>
                 (items.enum).flatMap (fun it =>
                   checkKeyframe (p ++ [.key "keyframes", .key kv.1, .idx it.1]) it.2)
             | _ => [typeSErr (p ++ [.key "keyframes", .key kv.1])])
       | some _ => [typeSErr (p ++ [.key "keyframes"])]
       | none => []) ++
      (match jGet kvs "external_refs" with
       | some (.arr items) =>
           (items.enum).flatMap (fun it =>
             checkExtRef (p ++ [.key "external_refs", .idx it.1]) it.2)
       | some _ => [typeSErr (p ++ [.key "external_refs"])]
       | none => [])
  | _ => [typeSErr p]

/-- Schema `source.original` object. -/
def checkOriginal (p : List PathElem) (j : Json) : List SErr :=
  match j with
  | .obj kvs =>
      requiredErrs ["path", "umid_chain", "tape_id", "disk_label",
        "src_tc_start_frames", "src_rate_fps", "src_drop"] kvs p ++
      addPropsErr ["path", "umid_chain", "tape_id", "disk_label",
        "src_tc_start_frames", "src_rate_fps", "src_drop",
        "source_duration_frames"] kvs p ++
      (match jGet kvs "path" with
       | some v => strOrNullErrs (p ++ [.key "path"]) v
       | none => []) ++
      (match jGet kvs "umid_chain" with
       | some (.arr items) =>
           (items.enum).flatMap (fun it =>
             strTypeErrs (p ++ [.key "umid_chain", .idx it.1]) it.2)
       | some _ => [typeSErr (p ++ [.key "umid_chain"])]
       | none => []) ++
      (match jGet kvs "tape_id" with
       | some v => strOrNullErrs (p ++ [.key "tape_id"]) v
       | none => []) ++
      (match jGet kvs "disk_label" with
       | some v => strOrNullErrs (p ++ [.key "disk_label"]) v
       | none => []) ++
      (match jGet kvs "src_tc_start_frames" with
       | some v => nonnegIntOrNullErrs (p ++ [.key "src_tc_start_frames"]) v
       | none => []) ++
      (match jGet kvs "src_rate_fps" with
       | some v => numExclMinErrs (p ++ [.key "src_rate_fps"]) v
       | none => []) ++
      (match jGet kvs "src_drop" with
       | some v => boolTypeErrs (p ++ [.key "src_drop"]) v
       | none => []) ++
      (match jGet kvs "source_duration_frames" with
       | some v => nonnegIntOrNullErrs (p ++ [.key "source_duration_frames"]) v
       | none => [])
  | _ => [typeSErr p]

/-- Schema `source` definition (the Option-B wrapper object). -/
def checkSource (p : List PathElem) (j : Json) : List SErr :=
  match j with
  | .obj kvs =>
      requiredErrs ["original"] kvs p ++
      addPropsErr ["original", "derived", "extensions"] kvs p ++
      (match jGet kvs "original" with
       | some v => checkOriginal (p ++ [.key "original"]) v
       | none => []) ++
      (match jGet kvs "derived" with
       | some v => if v.isObj then [] else [typeSErr (p ++ [.key "derived"])]
       | none => []) ++
      (match jGet kvs "extensions" with
       | some v => if v.isObj then [] else [typeSErr (p ++ [.key "extensions"])]
       | none => [])
  | _ => [typeSErr p]

/-- `"source": oneOf [null, source]`: a single `oneOf` error when no branch
matches (jsonschema does not surface the branch errors). -/
def checkEventSource (p : List PathElem) (j : Json) : List SErr :=
  if j.isNull then []
  else if checkSource p j = [] then []
  else [⟨.oneOf, p, none⟩]

/-- Schema `event` definition. -/
def checkEvent (p : List PathElem) (j : Json) : List SErr :=
  match j with
  | .obj kvs =>
      requiredErrs ["id", "timeline_start_frames", "length_frames", "source", "effect"] kvs p ++
      addPropsErr ["id", "timeline_start_frames", "length_frames", "source", "effect"] kvs p ++
      (match jGet kvs "id" with
       | some v =>
           strTypeErrs (p ++ [.key "id"]) v ++
           (match v with
            | .str s => if evIdPattern s then [] else [⟨.pattern, p ++ [.key "id"], none⟩]
            | _ => [])
       | none => []) ++
      (match jGet kvs "timeline_start_frames" with
       | some v => intMinErrs (p ++ [.key "timeline_start_frames"]) 0 v
       | none => []) ++
      (match jGet kvs "length_frames" with
       | some v => intMinErrs (p ++ [.key "length_frames"]) 1 v
       | none => []) ++
      (match jGet kvs "source" with
       | some v => checkEventSource (p ++ [.key "source"]) v
       | none => []) ++
      (match jGet kvs "effect" with
       | some v => checkEffect (p ++ [.key "effect"]) v
       | none => [])
  | _ => [typeSErr p]

/-- Schema `timeline` object. -/
def checkTimeline (j : Json) : List SErr :=
  let p : List PathElem := [.key "timeline"]
  match j with
  | .obj kvs =>
      requiredErrs ["name", "start_tc_frames", "events"] kvs p ++
      addPropsErr ["name", "start_tc_frames", "events"] kvs p ++
      (match jGet kvs "name" with
       | some v => strTypeErrs (p ++ [.key "name"]) v
       | none => []) ++
      (match jGet kvs "start_tc_frames" with
       | some v => intMinErrs (p ++ [.key "start_tc_frames"]) 0 v
       | none => []) ++
      (match jGet kvs "events" with
       | some (.arr items) =>
           (items.enum).flatMap (fun it =>
             checkEvent (p ++ [.key "events", .idx it.1]) it.2)
       | some _ => [typeSErr (p ++ [.key "events"])]
       | none => [])
  | _ => [typeSErr p]

/-- Schema `project` object. -/
def checkProject (j : Json) : List SErr :=
  let p : List PathElem := [.key "project"]
  match j with
  | .obj kvs =>
      requiredErrs ["name", "edit_rate_fps", "tc_format"] kvs p ++
      addPropsErr ["name", "edit_rate_fps", "tc_format"] kvs p ++
      (match jGet kvs "name" with
       | some v => strTypeErrs (p ++ [.key "name"]) v
       | none => []) ++
      (match jGet kvs "edit_rate_fps" with
       | some v => numExclMinErrs (p ++ [.key "edit_rate_fps"]) v
       | none => []) ++
      (match jGet kvs "tc_format" with
       | some v =>
           strTypeErrs (p ++ [.key "tc_format"]) v ++
           (if jStrEq v "DF" || jStrEq v "NDF" then []
            else [⟨.enum, p ++ [.key "tc_format"], none⟩])
       | none => [])
  | _ => [typeSErr [.key "project"]]

/-- All raw schema errors of a document: `Draft7Validator(schema).iter_errors`. -/
def canonical_schema_errors (d : Json) : List SErr :=
  match d with
  | .obj kvs =>
      requiredErrs ["project", "timeline"] kvs [] ++
      addPropsErr ["project", "timeline"] kvs [] ++
      (match jGet kvs "project" with
       | some v => checkProject v
       | none => []) ++
      (match jGet kvs "timeline" with
       | some v => checkTimeline v
       | none => [])
  | _ => [typeSErr []]

-- ---------------------------------------------------------------------------
-- Reason codes and error mapping (map_validation_error_to_reason_code)
-- ---------------------------------------------------------------------------

namespace ReasonCodes

def MISSING_PROJECT : String := "CANON-REQ-001"
def MISSING_TIMELINE : String := "CANON-REQ-002"
def EXTRA_TOP_LEVEL_KEYS : String := "CANON-REQ-003"
def MISSING_PROJECT_NAME : String := "CANON-REQ-004"
def MISSING_PROJECT_EDIT_RATE : String := "CANON-REQ-005"
def MISSING_PROJECT_TC_FORMAT : String := "CANON-REQ-006"
def INVALID_TC_FORMAT : String := "CANON-REQ-007"
def INVALID_EDIT_RATE : String := "CANON-REQ-008"
def MISSING_TIMELINE_NAME : String := "CANON-REQ-009"
def MISSING_TIMELINE_START_TC : String := "CANON-REQ-010"
def MISSING_TIMELINE_EVENTS : String := "CANON-REQ-011"
def INVALID_START_TC_FRAMES : String := "CANON-REQ-012"
def MISSING_EVENT_ID : String := "CANON-REQ-013"
def MISSING_EVENT_TIMELINE_START : String := "CANON-REQ-014"
def MISSING_EVENT_LENGTH : String := "CANON-REQ-015"
def MISSING_EVENT_SOURCE : String := "CANON-REQ-016"
def MISSING_EVENT_EFFECT : String := "CANON-REQ-017"
def INVALID_TIMELINE_START : String := "CANON-REQ-018"
def INVALID_LENGTH_FRAMES : String := "CANON-REQ-019"
def INVALID_EVENT_ID_FORMAT : String := "CANON-REQ-020"
def MISSING_SOURCE_PATH : String := "CANON-REQ-021"
def MISSING_SOURCE_UMID_CHAIN : String := "CANON-REQ-022"
def MISSING_SOURCE_TAPE_ID : String := "CANON-REQ-023"
def MISSING_SOURCE_DISK_LABEL : String := "CANON-REQ-024"
def MISSING_SOURCE_TC_START : String := "CANON-REQ-025"
def MISSING_SOURCE_RATE_FPS : String := "CANON-REQ-026"
def MISSING_SOURCE_DROP : String := "CANON-REQ-027"
def INVALID_UMID_CHAIN : String := "CANON-REQ-028"
def MISSING_EFFECT_NAME : String := "CANON-REQ-029"
def MISSING_EFFECT_ON_FILLER : String := "CANON-REQ-030"
def MISSING_EFFECT_PARAMETERS : String := "CANON-REQ-031"
def MISSING_EFFECT_KEYFRAMES : String := "CANON-REQ-032"
def MISSING_EFFECT_EXTERNAL_REFS : String := "CANON-REQ-033"
def MISSING_KEYFRAME_TIME : String := "CANON-REQ-034"
def MISSING_KEYFRAME_VALUE : String := "CANON-REQ-035"
def INVALID_KEYFRAME_TIME : String := "CANON-REQ-036"
def KEYFRAME_TIME_ORDER : String := "CANON-REQ-037"
def MISSING_EXTREF_KIND : String := "CANON-REQ-038"
def MISSING_EXTREF_PATH : String := "CANON-REQ-039"

end ReasonCodes

/-- A reported validation error (ValidationErrorReport dataclass). -/
structure VErr where
  code : String
  path : String
  message : String
  doc : String
deriving DecidableEq

structure ValidationSummary where
  checked : Nat
  failed : Nat
  reason_codes : List String
deriving DecidableEq

structure ValidationReport where
  ok : Bool
  errors : List VErr
  summary : ValidationSummary
deriving DecidableEq

def pathElemStr : PathElem → String
  | .key s => s
  | .idx n => toString n

/-- `f"$.{'.'.join(str(p) for p in path)}" if path else "$"`. -/
def pathStr (path : List PathElem) : String :=
  if path.isEmpty then "$"
  else "$." ++ String.intercalate "." (path.map pathElemStr)

/-- Python `dict.get(k, default)` over a literal code table. -/
def lookupCodeD (m : List (String × String)) (k d : String) : String :=
  (((m.find? (fun kv => kv.1 == k))).map (fun kv => kv.2)).getD d

/-- Display rendering of a JSON value used only inside error messages
(no theorem below reads message text). -/
def renderJson : Json → String
  | .null => "None"
  | .bool b => if b then "True" else "False"
  | .num q => if q.den == 1 then toString q.num else toString q
  | .str s => "'" ++ s ++ "'"
  | .arr _ => "[...]"
  | .obj _ => "\x7b...\x7d"

def msgOfSErr (e : SErr) : String :=
  match e.validator with
  | .required => "'" ++ e.missing.getD "" ++ "' is a required property"
  | .typeK => "instance is not of the expected type"
  | .addProps => "Additional properties are not allowed"
  | .enum => "instance is not one of the enumerated values"
  | .minimum => "instance is less than the minimum"
  | .exclusiveMinimum => "instance is less than or equal to the exclusive minimum"
  | .pattern => "instance does not match the pattern"
  | .oneOf => "instance is not valid under any of the given schemas"

/-- Convert a raw schema error to the reason-code structure, mirroring the
`if/elif` chain of the source (including its quirks: any `required` error
whose path starts with "timeline" is resolved against the timeline key
table, so the event branch is shadowed for such paths). -/
def map_validation_error_to_reason_code (e : SErr) : VErr :=
  let path := e.path
  let path_str := pathStr path
  let code :=
    if e.validator = .required then
      let missing := e.missing.getD ""
      if path.isEmpty then
        if missing == "project" then ReasonCodes.MISSING_PROJECT
        else if missing == "timeline" then ReasonCodes.MISSING_TIMELINE
        else ReasonCodes.EXTRA_TOP_LEVEL_KEYS
      else if path.head? = some (.key "project") then
        lookupCodeD [("name", ReasonCodes.MISSING_PROJECT_NAME),
          ("edit_rate_fps", ReasonCodes.MISSING_PROJECT_EDIT_RATE),
          ("tc_format", ReasonCodes.MISSING_PROJECT_TC_FORMAT)] missing
          ReasonCodes.EXTRA_TOP_LEVEL_KEYS
      else if path.head? = some (.key "timeline") then
        lookupCodeD [("name", ReasonCodes.MISSING_TIMELINE_NAME),
          ("start_tc_frames", ReasonCodes.MISSING_TIMELINE_START_TC),
          ("events", ReasonCodes.MISSING_TIMELINE_EVENTS)] missing
          ReasonCodes.EXTRA_TOP_LEVEL_KEYS
      else if path.contains (PathElem.key "events") then
        lookupCodeD [("id", ReasonCodes.MISSING_EVENT_ID),
          ("timeline_start_frames", ReasonCodes.MISSING_EVENT_TIMELINE_START),
          ("length_frames", ReasonCodes.MISSING_EVENT_LENGTH),
          ("source", ReasonCodes.MISSING_EVENT_SOURCE),
          ("effect", ReasonCodes.MISSING_EVENT_EFFECT)] missing
          ReasonCodes.EXTRA_TOP_LEVEL_KEYS
      else if path.contains (PathElem.key "source") && path.contains (PathElem.key "original") then
        lookupCodeD [("path", ReasonCodes.MISSING_SOURCE_PATH),
          ("umid_chain", ReasonCodes.MISSING_SOURCE_UMID_CHAIN),
          ("tape_id", ReasonCodes.MISSING_SOURCE_TAPE_ID),
          ("disk_label", ReasonCodes.MISSING_SOURCE_DISK_LABEL),
          ("src_tc_start_frames", ReasonCodes.MISSING_SOURCE_TC_START),
          ("src_rate_fps", ReasonCodes.MISSING_SOURCE_RATE_FPS),
          ("src_drop", ReasonCodes.MISSING_SOURCE_DROP)] missing
          ReasonCodes.EXTRA_TOP_LEVEL_KEYS
      else if path.contains (PathElem.key "effect") then
        lookupCodeD [("name", ReasonCodes.MISSING_EFFECT_NAME),
          ("on_filler", ReasonCodes.MISSING_EFFECT_ON_FILLER),
          ("parameters", ReasonCodes.MISSING_EFFECT_PARAMETERS),
          ("keyframes", ReasonCodes.MISSING_EFFECT_KEYFRAMES),
          ("external_refs", ReasonCodes.MISSING_EFFECT_EXTERNAL_REFS)] missing
          ReasonCodes.EXTRA_TOP_LEVEL_KEYS
      else ReasonCodes.EXTRA_TOP_LEVEL_KEYS
    else if e.validator = .enum && pyInStr "tc_format" path_str then
      ReasonCodes.INVALID_TC_FORMAT
    else if e.validator = .minimum || e.validator = .exclusiveMinimum then
      if pyInStr "edit_rate_fps" path_str then ReasonCodes.INVALID_EDIT_RATE
      else if pyInStr "start_tc_frames" path_str then ReasonCodes.INVALID_START_TC_FRAMES
      else if pyInStr "timeline_start_frames" path_str then ReasonCodes.INVALID_TIMELINE_START
      else if pyInStr "length_frames" path_str then ReasonCodes.INVALID_LENGTH_FRAMES
      else if pyInStr "keyframes" path_str && pyInStr ".t" path_str then
        ReasonCodes.INVALID_KEYFRAME_TIME
      else ReasonCodes.EXTRA_TOP_LEVEL_KEYS
    else if e.validator = .pattern && pyInStr ".id" path_str then
      ReasonCodes.INVALID_EVENT_ID_FORMAT
    else ReasonCodes.EXTRA_TOP_LEVEL_KEYS
  { code := code, path := path_str, message := msgOfSErr e,
    doc := "docs/data_model_json.md" }

-- ---------------------------------------------------------------------------
-- _run_additional_validations
-- ---------------------------------------------------------------------------

def pyExcName : PyExc → String
  | .attributeError => "AttributeError"
  | .typeError => "TypeError"

def internalVErr (e : PyExc) : VErr :=
  { code := "CANON-INTERNAL-ERROR", path := "$",
    message := "Internal validation error: " ++ pyExcName e,
    doc := "docs/data_model_json.md" }

def kfOrderVErr (ei : Nat) (pname : String) (times : List Json) : VErr :=
  { code := ReasonCodes.KEYFRAME_TIME_ORDER,
    path := "$.timeline.events[" ++ toString ei ++ "].effect.keyframes." ++ pname,
    message := "Keyframes not ordered by time: [" ++
      String.intercalate ", " (times.map renderJson) ++ "]",
    doc := "docs/data_model_json.md#parameter--keyframe-capture" }

def umidVErr (ei ui : Nat) (u : Json) : VErr :=
  { code := ReasonCodes.INVALID_UMID_CHAIN,
    path := "$.timeline.events[" ++ toString ei ++ "].source.original.umid_chain[" ++
      toString ui ++ "]",
    message := "UMID must be non-empty string, found: " ++ renderJson u,
    doc := "docs/data_model_json.md#identifiers" }

/-- `[k.get("t") for k in arr if isinstance(k, dict) and "t" in k]`. -/
def kfTimes (arr : List Json) : List Json :=
  arr.filterMap (fun k =>
    match k with
    | .obj kvs => jGet kvs "t"
    | _ => none)

/-- The inner `for pname, arr in kfs.items()` loop of the keyframe-order
check: accumulated errors, plus the exception that aborted the loop if the
`sorted` call raised. -/
def kfParamLoop (prs : List (String × Json)) (ei : Nat) : List VErr × Option PyExc :=
  match prs with
  | [] => ([], none)
  | (pname, arrJ) :: rest =>
      match arrJ with
      | .arr arr =>
          if arr.length > 1 then
            let times := kfTimes arr
            match pyTimesCheck times with
            | .error e => ([], some e)
            | .ok isSorted =>
                if isSorted then kfParamLoop rest ei
                else
                  let (es, exc) := kfParamLoop rest ei
                  (kfOrderVErr ei pname times :: es, exc)
          else kfParamLoop rest ei
      | _ => kfParamLoop rest ei

/-- The `for ei, ev in enumerate(events)` loop of the keyframe-order check. -/
def kfEvLoop (evs : List Json) (ei : Nat) : List VErr × Option PyExc :=
  match evs with
  | [] => ([], none)
  | ev :: rest =>
      match pyGetD ev "effect" (.obj []) with
      | .error e => ([], some e)
      | .ok effRaw =>
          let eff := if pyTruthy effRaw then effRaw else Json.obj []
          match pyGetD eff "keyframes" (.obj []) with
          | .error e => ([], some e)
          | .ok kfRaw =>
              let kfs := if pyTruthy kfRaw then kfRaw else Json.obj []
              match pyItemsPairs kfs with
              | .error e => ([], some e)
              | .ok prs =>
                  match kfParamLoop prs ei with
                  | (es, some e) => (es, some e)
                  | (es, none) =>
                      let (es2, exc) := kfEvLoop rest (ei + 1)
                      (es ++ es2, exc)

/-- The keyframe-ordering section of `_run_additional_validations`: the
whole section sits in a `try`, so an exception is converted into a single
`CANON-INTERNAL-ERROR` entry appended after the errors gathered so far. -/
def keyframe_order_checks (data : Json) : List VErr :=
  let run : List VErr × Option PyExc :=
    match pyGetD data "timeline" (.obj []) with
    | .error e => ([], some e)
    | .ok tl =>
        match pyGetD tl "events" (.arr []) with
        | .error e => ([], some e)
        | .ok evJ =>
            match pyEnumerate evJ with
            | .error e => ([], some e)
            | .ok evs => kfEvLoop evs 0
  match run with
  | (es, none) => es
  | (es, some e) => es ++ [internalVErr e]

/-- The per-event body of the UMID-chain section. -/
def umidEventErrs (ev : Json) (ei : Nat) : Except PyExc (List VErr) :=
  match pyGetD ev "source" Json.null with
  | .error e => .error e
  | .ok src =>
      if pyTruthy src && src.isObj then
        match pyGetD src "original" Json.null with
        | .error e => .error e
        | .ok origJ =>
            if origJ.isObj && pyTruthy origJ then
              match pyGetD origJ "umid_chain" (.arr []) with
              | .error e => .error e
              | .ok chainJ =>
                  match chainJ with
                  | .arr chain =>
                      .ok ((chain.enum).filterMap (fun it =>
                        match it.2 with
                        | .str u =>
                            if pyStrip u == "" then some (umidVErr ei it.1 it.2)
                            else none
                        | _ => some (umidVErr ei it.1 it.2)))
                  | _ => .ok []
            else .ok []
      else .ok []

def umidEvLoop (evs : List Json) (ei : Nat) : Except PyExc (List VErr) :=
  match evs with
  | [] => .ok []
  | ev :: rest =>
      match umidEventErrs ev ei with
      | .error e => .error e
      | .ok here =>
          match umidEvLoop rest (ei + 1) with
          | .error e => .error e
          | .ok there => .ok (here ++ there)

/-- The UMID-chain section of `_run_additional_validations`.  Unlike the
keyframe section it is NOT wrapped in a `try`, so a failure here propagates
as a raised exception. -/
def umid_chain_checks (data : Json) : Except PyExc (List VErr) :=
  match pyGetD data "timeline" (.obj []) with
  | .error e => .error e
  | .ok tl =>
      match pyGetD tl "events" (.arr []) with
      | .error e => .error e
      | .ok evJ =>
          match pyEnumerate evJ with
          | .error e => .error e
          | .ok evs => umidEvLoop evs 0

def run_additional_validations (data : Json) : Except PyExc (List VErr) :=
  let kfErrs := keyframe_order_checks data
  match umid_chain_checks data with
  | .error e => .error e
  | .ok umidErrs => .ok (kfErrs ++ umidErrs)

-- ---------------------------------------------------------------------------
-- validate_canonical_json and the CLI boundary
-- ---------------------------------------------------------------------------

/-- `validate_canonical_json(data)`: schema errors mapped to reason codes,
then the additional validations; `.error` marks the code paths on which the
Python function raises an uncaught exception. -/
def validate_canonical_json (data : Json) : Except PyExc ValidationReport :=
  let schemaErrs := (canonical_schema_errors data).map map_validation_error_to_reason_code
  match run_additional_validations data with
  | .error e => .error e
  | .ok extra =>
      let errors := schemaErrs ++ extra
      let checked := schemaErrs.length + extra.length
      .ok { ok := errors.isEmpty, errors := errors,
            summary := { checked := checked, failed := errors.length,
                         reason_codes := errors.map (fun er => er.code) } }

/-- The result of `open` + `json.load` at the CLI boundary. -/
inductive FileInput where
  | missing : FileInput
  | badJson : Nat → FileInput
  | parsed : Json → FileInput

def fileErrReport : ValidationReport :=
  { ok := false,
    errors := [{ code := "CANON-FILE-ERROR", path := "$",
                 message := "File not found", doc := "docs/data_model_json.md" }],
    summary := { checked := 0, failed := 1, reason_codes := ["CANON-FILE-ERROR"] } }

def parseErrReport (lineno : Nat) : ValidationReport :=
  { ok := false,
    errors := [{ code := "CANON-PARSE-ERROR", path := "line " ++ toString lineno,
                 message := "Invalid JSON", doc := "docs/data_model_json.md" }],
    summary := { checked := 0, failed := 1, reason_codes := ["CANON-PARSE-ERROR"] } }

def load_and_validate_json_file : FileInput → Except PyExc ValidationReport
  | .missing => .ok fileErrReport
  | .badJson n => .ok (parseErrReport n)
  | .parsed d => validate_canonical_json d

/-- The exit code computed by `main` (0 valid, 2 file/parse, 1 otherwise);
`.error` marks inputs on which `main` crashes with an uncaught exception. -/
def validate_cli_exit_code (inp : FileInput) : Except PyExc Nat := do
  let report ← load_and_validate_json_file inp
  if report.ok then return 0
  else if report.errors.any (fun c =>
      strStartsWith c.code "CANON-PARSE" || strStartsWith c.code "CANON-FILE") then
    return 2
  else return 1

-- ---------------------------------------------------------------------------
-- Concrete documents for the §8 scenario
-- ---------------------------------------------------------------------------

/-- The flat source object of the §8 minimal document (the shape built by
`create_minimal_valid_example`). -/
def minimalFlatSource : Json := .obj [
  ("path", .str "file:///Volumes/Media/clip01.mov"),
  ("umid_chain", .arr [.str "\x7bUMID-A\x7d", .str "\x7bUMID-B\x7d"]),
  ("tape_id", .null),
  ("disk_label", .str "DISK01"),
  ("src_tc_start_frames", .num 90000),
  ("src_rate_fps", .num 25),
  ("src_drop", .bool false)]

def minimalEffect : Json := .obj [
  ("name", .str "(none)"),
  ("on_filler", .bool false),
  ("parameters", .obj []),
  ("keyframes", .obj []),
  ("external_refs", .arr [])]

def minimalDocWith (source : Json) (effect : Json) : Json := .obj [
  ("project", .obj [
    ("name", .str "MyTimeline"),
    ("edit_rate_fps", .num 25),
    ("tc_format", .str "NDF")]),
  ("timeline", .obj [
    ("name", .str "MyTimeline.Exported.01"),
    ("start_tc_frames", .num 3600),
    ("events", .arr [.obj [
      ("id", .str "ev_0001"),
      ("timeline_start_frames", .num 0),
      ("length_frames", .num 100),
      ("source", source),
      ("effect", effect)]])])]

/-- The §8 minimal document exactly as the spec (and
`create_minimal_valid_example`) writes it: the source is flat. -/
def minimalFlatDoc : Json := minimalDocWith minimalFlatSource minimalEffect

/-- The same document with the source wrapped in the `original` envelope
that `get_canonical_json_schema` actually requires. -/
def minimalWrappedDoc : Json :=
  minimalDocWith (.obj [("original", minimalFlatSource)]) minimalEffect

def reportOk? (r : Except PyExc ValidationReport) : Option Bool :=
  match r with
  | .ok rep => some rep.ok
  | .error _ => none

def reportCodes? (r : Except PyExc ValidationReport) : Option (List String) :=
  match r with
  | .ok rep => some (rep.errors.map (fun e => e.code))
  | .error _ => none

def reportPaths? (r : Except PyExc ValidationReport) : Option (List String) :=
  match r with
  | .ok rep => some (rep.errors.map (fun e => e.path))
  | .error _ => none

-- ---------------------------------------------------------------------------
-- Structural views of a schema-valid document (used to state what the
-- additional validations compute)
-- ---------------------------------------------------------------------------

def docTimeline (d : Json) : Json :=
  match d with
  | .obj kvs => (jGet kvs "timeline").getD .null
  | _ => .null

def docEvents (d : Json) : List Json :=
  match docTimeline d with
  | .obj kvs =>
      match jGet kvs "events" with
      | some (.arr l) => l
      | _ => []
  | _ => []

def evKeyframes (ev : Json) : List (String × Json) :=
  match ev with
  | .obj kvs =>
      match jGet kvs "effect" with
      | some (.obj ekvs) =>
          match jGet ekvs "keyframes" with
          | some (.obj kk) => kk
          | _ => []
      | _ => []
  | _ => []

/-- Non-decreasing test over a list of JSON numbers (false on non-numbers;
on a schema-valid document every keyframe `t` is a number). -/
def timesNonDecreasing : List Json → Bool
  | [] => true
  | [.num _] => true
  | .num a :: .num b :: rest => decide (a ≤ b) && timesNonDecreasing (.num b :: rest)
  | _ => false

/-- The out-of-order keyframe parameters of one event: triples of event
index, parameter name and the extracted `t` list, for every keyframe list
of length at least 2 whose times are not non-decreasing. -/
def evBadKf (ev : Json) (ei : Nat) : List (Nat × String × List Json) :=
  (evKeyframes ev).filterMap (fun pr =>
    match pr.2 with
    | .arr items =>
        if items.length > 1 && !(timesNonDecreasing (kfTimes items)) then
          some (ei, pr.1, kfTimes items)
        else none
    | _ => none)

def badKfLoop : List Json → Nat → List (Nat × String × List Json)
  | [], _ => []
  | ev :: rest, ei => evBadKf ev ei ++ badKfLoop rest (ei + 1)

/-- All out-of-order keyframe parameters of a document. -/
def outOfOrderKeyframeBad (d : Json) : List (Nat × String × List Json) :=
  badKfLoop (docEvents d) 0

/-- The `KEYFRAME_TIME_ORDER` entries the validator produces for a
schema-valid document: exactly one per out-of-order list, at the
parameter's JSON path. -/
def outOfOrderKeyframeErrs (d : Json) : List VErr :=
  (outOfOrderKeyframeBad d).map (fun tr => kfOrderVErr tr.1 tr.2.1 tr.2.2)

/-- The UMID-chain entries of the report (empty when that section raises,
which cannot happen on a schema-valid document). -/
def umidErrsOf (d : Json) : List VErr :=
  match umid_chain_checks d with
  | .ok es => es
  | .error _ => []

-- ---------------------------------------------------------------------------
-- parse_aaf.py: value model and helpers
-- ---------------------------------------------------------------------------

/-- A Python value carried by AAF tagged values / user comments / attributes:
`None`, a string, or a byte string. -/
inductive PyVal where
  | pynone : PyVal
  | str : String → PyVal
  | bytes : List Nat → PyVal
deriving DecidableEq

def pyValTruthy : PyVal → Bool
  | .pynone => false
  | .str s => s != ""
  | .bytes bs => !bs.isEmpty

/-- Python `a or b`. -/
def pyOr (a b : PyVal) : PyVal := if pyValTruthy a then a else b

/-- Python dict insert-or-update (keys keep first-insertion order, values
are overwritten in place). -/
def pyDictUpd {α : Type} (m : List (String × α)) (k : String) (v : α) :
    List (String × α) :=
  if m.any (fun kv => kv.1 == k) then
    m.map (fun kv => if kv.1 == k then (k, v) else kv)
  else m ++ [(k, v)]

def pyDictGet {α : Type} (m : List (String × α)) (k : String) : Option α :=
  (m.find? (fun kv => kv.1 == k)).map (fun kv => kv.2)

def strEndsWith (s suffix : String) : Bool :=
  suffix.toList.isSuffixOf s.toList

/-- UTF-16LE code units of a byte string (little-endian pairs; a trailing
odd byte is ignored, as `errors='ignore'` does). -/
def utf16leUnits : List Nat → List Nat
  | b0 :: b1 :: rest => (b0 % 256 + 256 * (b1 % 256)) :: utf16leUnits rest
  | _ => []

/-- Decode UTF-16 code units with `errors='ignore'`: surrogate pairs are
combined, lone surrogates are dropped. -/
def utf16leChars : List Nat → List Char
  | [] => []
  | [u] => if u < 0xD800 || 0xE000 ≤ u then [Char.ofNat u] else []
  | u :: v :: rest =>
      if u < 0xD800 || 0xE000 ≤ u then Char.ofNat u :: utf16leChars (v :: rest)
      else if u < 0xDC00 then
        (if 0xDC00 ≤ v && v < 0xE000 then
          Char.ofNat (0x10000 + (u - 0xD800) * 1024 + (v - 0xDC00)) :: utf16leChars rest
         else utf16leChars (v :: rest))
      else utf16leChars (v :: rest)

/-- `decode_possible_path(value)`: bytes are decoded as UTF-16LE with
errors ignored; the value is kept (stripped) iff it looks path-like. -/
def decode_possible_path (value : PyVal) : Option String :=
  if !pyValTruthy value then none
  else
    let s : String :=
      match value with
      | .bytes bs => ⟨utf16leChars (utf16leUnits bs)⟩
      | .str s => s
      | .pynone => "None"
    if pyInStr "file://" s || pyInStr "/" s || pyInStr ":\\" s ||
        strEndsWith s ".mov" || strEndsWith s ".mxf" then
      some (pyStrip s)
    else none

-- ---------------------------------------------------------------------------
-- parse_aaf.py: mob graph model and resolve_umid_chain
-- ---------------------------------------------------------------------------

/-- A `{Name, Value}` tag of UserComments / TaggedValues. -/
structure PTag where
  name : String
  value : PyVal
deriving DecidableEq

/-- The slice of a slot segment that `resolve_umid_chain` reads: its class
name and the Timecode fields.  `drop?` is `none` when the `drop` attribute
is absent, in which case accessing `tc.drop` raises and the surrounding
`try` abandons the rest of the slot loop. -/
structure PTcSeg where
  class_name : String
  start? : Option Int
  rate? : Option ℚ
  drop? : Option Bool
deriving DecidableEq

structure PSlot where
  segment? : Option PTcSeg
deriving DecidableEq

/-- `locators` entry; `URLString?` is `none` when the attribute is absent. -/
structure PLocator where
  URLString? : Option String
deriving DecidableEq

structure PDesc where
  locators? : Option (List PLocator)
  taggedValues? : Option (List PTag)
deriving DecidableEq

/-- A mob as `resolve_umid_chain` sees it.  `referencedIds` is `none` when
the mob has no `referenced_mobs` attribute; otherwise it lists
`getattr(ref, "mob_id", None)` of each referenced mob (so an entry `none`
turns into the string `"None"` under `str`). -/
structure PMob where
  userComments? : Option (List PTag)
  taggedValues? : Option (List PTag)
  slots : List PSlot
  descriptor? : Option PDesc
  referencedIds : Option (List (Option String))
deriving DecidableEq

/-- `harvest_usercomments` / `harvest_taggedvalues`: build a dict from the
tag list (absence of the property yields the empty dict). -/
def harvestTags : Option (List PTag) → List (String × PyVal)
  | none => []
  | some tags => tags.foldl (fun m tag => pyDictUpd m tag.name tag.value) []

def dGet (m : List (String × PyVal)) (k : String) : PyVal :=
  (pyDictGet m k).getD .pynone

/-- The result dict of `resolve_umid_chain`. -/
structure ResolveResult where
  path : Option String
  umid_chain : List String
  tape_id : PyVal
  disk_label : PyVal
  src_tc_start_frames : Option Int
  src_rate_fps : Option ℚ
  src_drop : Option Bool
deriving DecidableEq

def emptyResolveResult : ResolveResult :=
  { path := none, umid_chain := [], tape_id := .pynone, disk_label := .pynone,
    src_tc_start_frames := none, src_rate_fps := none, src_drop := none }

/-- The per-mob Timecode harvest: every Timecode slot overwrites start and
rate, then reads `tc.drop`; a missing `drop` raises, so the remaining slots
of this mob are skipped while the start/rate writes already made stick. -/
def harvestTcSlots : List PSlot → ResolveResult → ResolveResult
  | [], st => st
  | s :: rest, st =>
      match s.segment? with
      | none => harvestTcSlots rest st
      | some seg =>
          if seg.class_name == "Timecode" then
            let st1 := { st with src_tc_start_frames := seg.start?,
                                 src_rate_fps := seg.rate? }
            match seg.drop? with
            | none => st1
            | some d => harvestTcSlots rest { st1 with src_drop := some d }
          else harvestTcSlots rest st

/-- First locator that has a `URLString` attribute. -/
def firstLocURL : List PLocator → Option String
  | [] => none
  | l :: rest =>
      match l.URLString? with
      | some u => some u
      | none => firstLocURL rest

/-- First truthy path decoded from the descriptor's tagged values. -/
def firstTaggedPath : List PyVal → Option String
  | [] => none
  | v :: rest =>
      match decode_possible_path v with
      | some p => if p == "" then firstTaggedPath rest else some p
      | none => firstTaggedPath rest

/-- Truthiness of `result["path"]` (None and the empty string are falsy). -/
def pathTruthy : Option String → Bool
  | none => false
  | some s => s != ""

/-- The per-mob path harvest: a locator URL overwrites the path
unconditionally; the tagged-value fallback applies only while the path is
still falsy.  A missing descriptor skips the whole block. -/
def harvestPath (mob : PMob) (st : ResolveResult) : ResolveResult :=
  match mob.descriptor? with
  | none => st
  | some desc =>
      let st1 :=
        match desc.locators? with
        | some locs =>
            match firstLocURL locs with
            | some u => { st with path := some u }
            | none => st
        | none => st
      if pathTruthy st1.path then st1
      else
        match firstTaggedPath ((harvestTags desc.taggedValues?).map (fun kv => kv.2)) with
        | some p => { st1 with path := some p }
        | none => st1

/-- The loop body of `resolve_umid_chain` once the mob is found: user
comments and tagged values (nearest mob wins for tape id and disk label),
the Timecode slots, then the descriptor path. -/
def processMob (mob : PMob) (st : ResolveResult) : ResolveResult :=
  let uc := harvestTags mob.userComments?
  let tv := harvestTags mob.taggedValues?
  let st := if !pyValTruthy st.tape_id then
      { st with tape_id := pyOr (dGet uc "TapeID") (dGet uc "Tape Name") }
    else st
  let st := if !pyValTruthy st.disk_label then
      { st with disk_label := dGet tv "_IMPORTDISKLABEL" }
    else st
  let st := harvestTcSlots mob.slots st
  harvestPath mob st

/-- `str(getattr(ref, "mob_id", None))` of the first referenced mob. -/
def nextHop (mob : PMob) : Option String :=
  match mob.referencedIds with
  | none => none
  | some [] => none
  | some (r :: _) => some (r.getD "None")

def mobKeysNotVisited (mob_map : List (String × PMob)) (visited : List String) : Nat :=
  ((mob_map.map Prod.fst).filter (fun k => !(visited.contains k))).length

theorem length_filter_lt_of_strict {α : Type} (l : List α) (p q : α → Bool)
    (himp : ∀ a, q a = true → p a = true) (x : α) (hx : x ∈ l)
    (hp : p x = true) (hq : q x = false) :
    (l.filter q).length < (l.filter p).length := by
  induction l with
  | nil => cases hx
  | cons a as ih =>
      rcases List.mem_cons.mp hx with h | h
      · subst h
        simp only [List.filter_cons, hp, hq]
        calc (as.filter q).length ≤ (as.filter p).length := by
              exact List.Sublist.length_le (List.monotone_filter_right as
                (by intro a ha; exact himp a ha))
          _ < (as.filter p).length + 1 := Nat.lt_succ_self _
      · by_cases hqa : q a = true
        · have hpa := himp a hqa
          simp only [List.filter_cons, hpa, hqa]
          simpa using Nat.succ_lt_succ (ih h)
        · simp only [List.filter_cons, Bool.of_not_eq_true hqa]
          by_cases hpa : p a = true
          · simp only [hpa]
            exact Nat.lt_succ_of_lt (ih h)
          · simp only [Bool.of_not_eq_true hpa]
            exact ih h

/-- The `while mob_id and mob_id not in visited` loop of
`resolve_umid_chain`.  Termination: each recursive step inserts into
`visited` a mob id that is a key of the map, shrinking the set of
unvisited keys. -/
def resolveLoop (mob_map : List (String × PMob)) (visited : List String)
    (mob_id : String) (st : ResolveResult) : ResolveResult :=
  if h : visited.contains mob_id then st
  else
    let visited' := mob_id :: visited
    match hfind : pyDictGet mob_map mob_id with
    | none => st
    | some mob =>
        let st1 := { st with umid_chain := st.umid_chain ++ [mob_id] }
        let st2 := processMob mob st1
        match nextHop mob with
        | none => st2
        | some nid => if nid == "" then st2 else resolveLoop mob_map visited' nid st2
termination_by mobKeysNotVisited mob_map visited
decreasing_by
  refine length_filter_lt_of_strict _ _ _ ?_ mob_id ?_ ?_ ?_
  · intro a ha
    simp only [Bool.not_eq_true'] at ha ⊢
    simp only [List.contains_cons] at ha
    rcases Bool.or_eq_false_iff.mp ha with ⟨_, h2⟩
    exact h2
  · have : (mob_map.find? (fun kv => kv.1 == mob_id)).isSome := by
      unfold pyDictGet at hfind
      cases hf : mob_map.find? (fun kv => kv.1 == mob_id) with
      | none => rw [hf] at hfind; simp at hfind
      | some kv => simp
    rcases Option.isSome_iff_exists.mp this with ⟨kv, hkv⟩
    have hmem := List.mem_of_find?_eq_some hkv
    have hkey : kv.1 = mob_id := by
      have := List.find?_some hkv
      simpa using this
    exact hkey ▸ List.mem_map_of_mem Prod.fst hmem
  · simpa using h
  · simp [List.contains_cons]

/-- `resolve_umid_chain(source_clip, mob_map)`: the entry reads
`source_clip['SourceID']` (`SourceID?` is `none` when that access raises,
in which case the walk never starts). -/
structure PSourceClip where
  SourceID? : Option String
deriving DecidableEq

def resolve_umid_chain (source_clip : PSourceClip)
    (mob_map : List (String × PMob)) : ResolveResult :=
  match source_clip.SourceID? with
  | none => emptyResolveResult
  | some mid =>
      if mid == "" then emptyResolveResult
      else resolveLoop mob_map [] mid emptyResolveResult

-- ---------------------------------------------------------------------------
-- parse_aaf.py: parse_sequence
-- ---------------------------------------------------------------------------

/-- A parameter of an OperationGroup as `extract_parameters_and_keyframes`
reads it: `name` (attribute or None), `value` (None when the property read
raises), and the `point_list` when the attribute exists. -/
structure PParamRec where
  name : PyVal
  value : PyVal
  point_list? : Option (List (ℚ × PyVal))
deriving DecidableEq

/-- A segment-tree component as `parse_sequence` reads it.  `class_name`
drives the dispatch; `SourceID?` backs `component['SourceID']` inside
`resolve_umid_chain`, while `source_id?` backs
`getattr(component, "source_id", None)` (`none` when absent, making
`str(...)` produce `"None"`); `edit_rate?` carries the numerator and
denominator of the clip-level rate when present. -/
inductive PComp where
  | mk (class_name : String) (length? : Option Int) (name? : Option PyVal)
      (source_id? : Option String) (SourceID? : Option String)
      (edit_rate? : Option (Int × Int)) (attributes : List PTag)
      (opDefName? : Option String) (parameters? : Option (List PParamRec))
      (input_segments? : Option (List PComp)) (components : List PComp)

/-- The `{name, value, keyframes}` dict of one extracted parameter
(`keyframes` is the point list, or None when empty or absent). -/
structure EffParam where
  name : PyVal
  value : PyVal
  keyframes : Option (List (ℚ × PyVal))
deriving DecidableEq

/-- `extract_effect_name`: the first attribute tag named
`_EFFECT_PLUGIN_NAME` or `_CLASS` wins (its `Value`, possibly None); else
`str(op.operation_definition.name)`; else None. -/
def firstAttrName : List PTag → Option PyVal
  | [] => none
  | t :: rest =>
      if t.name == "_EFFECT_PLUGIN_NAME" || t.name == "_CLASS" then some t.value
      else firstAttrName rest

def extract_effect_name (attrs : List PTag) (opDefName? : Option String) : PyVal :=
  match firstAttrName attrs with
  | some v => v
  | none =>
      match opDefName? with
      | some n => .str n
      | none => .pynone

def extract_parameters_and_keyframes (parameters? : Option (List PParamRec)) :
    List EffParam :=
  match parameters? with
  | none => []
  | some ps =>
      ps.map (fun p =>
        { name := p.name, value := p.value,
          keyframes :=
            match p.point_list? with
            | none => none
            | some pts => if pts.isEmpty then none else some pts })

/-- An event dict appended by `parse_sequence` (two shapes: SourceClip
events and OperationGroup events). -/
inductive PEvent where
  | sourceClip (id : String) (start : Int) (duration : Int) (track : Int)
      (source : String)
  | opGroup (id : String) (start : Int) (duration : Int) (track : Int)
      (operation : PyVal) (fxId : String) (params : List EffParam)
      (on_filler : Option Bool)
deriving DecidableEq

def PEvent.id : PEvent → String
  | .sourceClip i _ _ _ _ => i
  | .opGroup i _ _ _ _ _ _ _ => i

def PEvent.start : PEvent → Int
  | .sourceClip _ s _ _ _ => s
  | .opGroup _ s _ _ _ _ _ _ => s

def PEvent.duration : PEvent → Int
  | .sourceClip _ _ d _ _ => d
  | .opGroup _ _ d _ _ _ _ _ => d

/-- A `sources[source_id]` entry. -/
structure PSourceEntry where
  id : String
  name : PyVal
  path : Option String
  rateNum : Int
  rateDen : Int
deriving DecidableEq

/-- The mutable state threaded through `parse_sequence`: the event list,
the sources dict, the external-refs list and the running timeline offset
(`timeline_start_frames[0]`). -/
structure PWalkState where
  events : List PEvent
  sources : List (String × PSourceEntry)
  external_refs : List (String × String)
  offset : Int
deriving DecidableEq

def pcompClassName : PComp → String
  | .mk cn _ _ _ _ _ _ _ _ _ _ => cn

def pcompLength : PComp → Option Int
  | .mk _ l _ _ _ _ _ _ _ _ _ => l

/-- The truthiness test `if getattr(component, "edit_rate", None)`:
a Fraction is falsy iff its value is zero. -/
def editRateTruthy : Option (Int × Int) → Bool
  | none => false
  | some (n, _) => n != 0

def sourceEntryOf (name? : Option PyVal) (source_id : String)
    (edit_rate? : Option (Int × Int)) (timeline_rate? : Option (Int × Int))
    (src_path : Option String) : PSourceEntry :=
  { id := source_id,
    name := name?.getD .pynone,
    path := src_path,
    rateNum := if editRateTruthy edit_rate? then (edit_rate?.getD (24, 1)).1
      else (timeline_rate?.map (fun r => r.1)).getD 24,
    rateDen := if editRateTruthy edit_rate? then (edit_rate?.getD (24, 1)).2
      else (timeline_rate?.map (fun r => r.2)).getD 1 }

/-- The external refs gathered from an OperationGroup's parameter values. -/
def opExternalRefs (params : List EffParam) : List (String × String) :=
  params.filterMap (fun p =>
    match decode_possible_path p.value with
    | some path =>
        if path == "" then none
        else some (if pyInStr "file://" path then "path" else "unknown", path)
    | none => none)

mutual

/-- One step of the `for component in sequence.components` loop. -/
def parse_component (timeline_rate? : Option (Int × Int))
    (mob_map : List (String × PMob)) (track : Int) :
    PComp → PWalkState → PWalkState
  | .mk cn len nm sid srcID er attrs odn pars inps comps, st =>
      if cn == "Sequence" then
        parse_components timeline_rate? mob_map track comps st
      else if cn == "SourceClip" then
        let source_id := sid.getD "None"
        let src_info := resolve_umid_chain ⟨srcID⟩ mob_map
        let sources' :=
          if source_id != "" && !(st.sources.any (fun kv => kv.1 == source_id)) then
            st.sources ++ [(source_id,
              sourceEntryOf nm source_id er timeline_rate? src_info.path)]
          else st.sources
        let dur := len.getD 0
        let ev := PEvent.sourceClip ("ev" ++ toString (st.events.length + 1))
          st.offset dur track source_id
        { st with events := st.events ++ [ev], sources := sources',
                  offset := st.offset + dur }
      else if cn == "OperationGroup" then
        let name := extract_effect_name attrs odn
        let params := extract_parameters_and_keyframes pars
        let op_refs := opExternalRefs params
        let dur := len.getD 0
        let on_filler : Option Bool :=
          match inps with
          | none => none
          | some l => some (l.all (fun i => pcompClassName i == "Filler"))
        let ev := PEvent.opGroup ("ev" ++ toString (st.events.length + 1))
          st.offset dur track name ("fx" ++ toString (st.events.length + 1))
          params on_filler
        { st with events := st.events ++ [ev],
                  external_refs := st.external_refs ++ op_refs,
                  offset := st.offset + dur }
      else st

def parse_components (timeline_rate? : Option (Int × Int))
    (mob_map : List (String × PMob)) (track : Int) :
    List PComp → PWalkState → PWalkState
  | [], st => st
  | c :: rest, st =>
      parse_components timeline_rate? mob_map track rest
        (parse_component timeline_rate? mob_map track c st)

end

def pcompComponents : PComp → List PComp
  | .mk _ _ _ _ _ _ _ _ _ _ comps => comps

/-- `parse_sequence(sequence, ...)`: walk the sequence's components. -/
def parse_sequence (sequence : PComp) (timeline_rate? : Option (Int × Int))
    (mob_map : List (String × PMob)) (track : Int) (st : PWalkState) :
    PWalkState :=
  parse_components timeline_rate? mob_map track (pcompComponents sequence) st

-- ---------------------------------------------------------------------------
-- build_canonical.py: segment/mob model
-- ---------------------------------------------------------------------------

/-- A segment as `build_canonical.py` sees it: dispatch is by substring of
the runtime type name; the optional child containers back the
`hasattr` probes (`none` = attribute absent, `some []` also covers an
attribute whose value is `None`, which `_iter_safe` turns into `[]`). -/
inductive BSeg where
  | mk (typeName : String) (length? : Option Int) (start? : Option Int)
      (name? : Option String) (source_id? : Option String)
      (opDefNameAttr? : Option (Option String)) (opDefAuid? : Option String)
      (hasOpDef : Bool)
      (components? : Option (List BSeg)) (input_segments? : Option (List BSeg))
      (segments? : Option (List BSeg)) (inputs? : Option (List BSeg))

def BSeg.typeName : BSeg → String
  | .mk tn _ _ _ _ _ _ _ _ _ _ _ => tn

def BSeg.length? : BSeg → Option Int
  | .mk _ l _ _ _ _ _ _ _ _ _ _ => l

def BSeg.source_id? : BSeg → Option String
  | .mk _ _ _ _ sid _ _ _ _ _ _ _ => sid

/-- Python `str(x)[-8:]`. -/
def strLast8 (s : String) : String :=
  ⟨(s.toList.reverse.take 8).reverse⟩

/-- The `operation_def` name resolution of `_extract_clips_recursive`:
"Unknown Effect" unless the operation def exposes a truthy `name`, with an
`auid`-derived fallback only when the `name` attribute is absent. -/
def opName (hasOpDef : Bool) (nameAttr? : Option (Option String))
    (auid? : Option String) : String :=
  if !hasOpDef then "Unknown Effect"
  else
    match nameAttr? with
    | some v =>
        (match v with
         | some s => if s != "" then s else "Unknown Effect"
         | none => "Unknown Effect")
    | none =>
        match auid? with
        | some a => "Effect_" ++ strLast8 a
        | none => "Unknown Effect"

structure BLoc where
  url_string? : Option String
deriving DecidableEq

structure BDescB where
  locator? : Option BLoc
deriving DecidableEq

/-- A slot of a composition mob. -/
structure BSlot where
  segment? : Option BSeg
  edit_rate? : Option ℚ

/-- A mob of the opened file, with the id attributes `build_mob_map`
probes and the descriptor `resolve_source_path` reads. -/
structure AMob where
  typeName : String
  name? : Option String
  slots? : Option (List BSlot)
  mob_id? : Option String
  umid? : Option String
  source_id? : Option String
  package_id? : Option String
  descriptor? : Option BDescB

/-- `f.content.mobs`. -/
structure AAFFile where
  mobs : List AMob

def build_mob_map (f : AAFFile) : List (String × AMob) :=
  f.mobs.foldl (fun m mob =>
    let m := match mob.mob_id? with
      | some k => pyDictUpd m k mob
      | none => m
    let m := match mob.umid? with
      | some k => pyDictUpd m k mob
      | none => m
    let m := match mob.source_id? with
      | some k => pyDictUpd m k mob
      | none => m
    match mob.package_id? with
    | some k => pyDictUpd m k mob
    | none => m) []

/-- `resolve_source_path(source_clip, mob_map)`: the clip's `source_id`
attribute, the referenced mob, and its `descriptor.locator.url_string`.
(The function reads nothing else of the clip.) -/
def resolve_source_path (source_clip_id : Option String)
    (mob_map : List (String × AMob)) : Option String :=
  match source_clip_id with
  | none => none
  | some sid =>
      match pyDictGet mob_map sid with
      | none => none
      | some mob =>
          match mob.descriptor? with
          | none => none
          | some desc =>
              match desc.locator? with
              | none => none
              | some loc =>
                  match loc.url_string? with
                  | none => none
                  | some u => some u

/-- The `{name, source_umid, source_path}` record of a found SourceClip. -/
structure SCInfo where
  name : String
  source_umid : String
  source_path : Option String
deriving DecidableEq

mutual

/-- `find_source_clip_recursive`: SourceClips are returned, Sequences are
searched, nested OperationGroups are deliberately not entered. -/
def findSC (mm : List (String × AMob)) : BSeg → Option SCInfo
  | .mk tn _ _ nm sid _ _ _ comps _ _ _ =>
      if pyInStr "SourceClip" tn then
        some { name := nm.getD "Media",
               source_umid := sid.getD "",
               source_path := resolve_source_path sid mm }
      else if pyInStr "Sequence" tn then
        match comps with
        | some cs => findSCList mm cs
        | none => none
      else none

def findSCList (mm : List (String × AMob)) : List BSeg → Option SCInfo
  | [] => none
  | c :: rest =>
      match findSC mm c with
      | some r => some r
      | none => findSCList mm rest

end

/-- The `effect_params` dict of a clip: empty for standalone SourceClips,
the operation summary for OperationGroup events. -/
inductive BEffParams where
  | empty : BEffParams
  | op (operation : String) (has_media : Bool) (input_count : Nat)
      (length : Int) : BEffParams
deriving DecidableEq

/-- A clip/event appended by `_extract_clips_recursive`. -/
structure BClip where
  name : String
  clip_in : Int
  clip_out : Int
  source_umid : String
  source_path : Option String
  effect_params : BEffParams
deriving DecidableEq

mutual

/-- `_extract_clips_recursive(segment, clips, mob_map, timeline_offset,
fps, processed_ranges)`: returns the extended clip list, the grown
processed-ranges set and the advanced offset.  (A child container that is
absent or `None` contributes no children, so the walk over it is the
identity, written inline here.) -/
def extractSeg (mm : List (String × AMob)) (fps : ℚ) (seg : BSeg)
    (clips : List BClip) (ranges : List (Int × Int)) (off : Int) :
    List BClip × List (Int × Int) × Int :=
  match seg with
  | .mk tn len _ nm sid odName odAuid hasOd comps inps segs innps =>
      if pyInStr "Sequence" tn then
        match comps with
        | some cs => extractList mm fps cs clips ranges off
        | none => (clips, ranges, off)
      else if pyInStr "OperationGroup" tn then
        let op_length := len.getD 0
        let op_range : Int × Int := (off, off + op_length)
        if ranges.contains op_range then (clips, ranges, off + op_length)
        else
          let ranges' := op_range :: ranges
          let operation_name := opName hasOd odName odAuid
          let input_segments : Option (List BSeg) :=
            match inps with
            | some l => some l
            | none =>
                match segs with
                | some l => some l
                | none =>
                    match innps with
                    | some l => some l
                    | none => none
          let input_count := (input_segments.map (fun l => l.length)).getD 0
          let scInfo :=
            match input_segments with
            | some l => findSCList mm l
            | none => none
          let clip : BClip :=
            match scInfo with
            | some info =>
                { name := info.name ++ " + " ++ operation_name,
                  clip_in := off, clip_out := off + op_length,
                  source_umid := info.source_umid,
                  source_path := info.source_path,
                  effect_params := .op operation_name true input_count op_length }
            | none =>
                { name := operation_name,
                  clip_in := off, clip_out := off + op_length,
                  source_umid := "", source_path := none,
                  effect_params := .op operation_name false input_count op_length }
          (clips ++ [clip], ranges', off + op_length)
      else if pyInStr "SourceClip" tn then
        let clip_length := len.getD 0
        let clip_range : Int × Int := (off, off + clip_length)
        if ranges.contains clip_range then (clips, ranges, off + clip_length)
        else
          let ranges' := clip_range :: ranges
          let clip : BClip :=
            { name := nm.getD "Media",
              clip_in := off, clip_out := off + clip_length,
              source_umid := sid.getD "",
              source_path := resolve_source_path sid mm,
              effect_params := .empty }
          (clips ++ [clip], ranges', off + clip_length)
      else if pyInStr "Filler" tn then (clips, ranges, off + len.getD 0)
      else if pyInStr "ScopeReference" tn then (clips, ranges, off + len.getD 0)
      else if pyInStr "Transition" tn then (clips, ranges, off + len.getD 0)
      else if pyInStr "Timecode" tn then (clips, ranges, off)
      else
        match segs with
        | some l =>
            if l.isEmpty then (clips, ranges, off + len.getD 0)
            else extractList mm fps l clips ranges off
        | none =>
            match comps with
            | some l =>
                if l.isEmpty then (clips, ranges, off + len.getD 0)
                else extractList mm fps l clips ranges off
            | none =>
                match innps with
                | some l =>
                    if l.isEmpty then (clips, ranges, off + len.getD 0)
                    else extractList mm fps l clips ranges off
                | none =>
                    match inps with
                    | some l =>
                        if l.isEmpty then (clips, ranges, off + len.getD 0)
                        else extractList mm fps l clips ranges off
                    | none => (clips, ranges, off + len.getD 0)
termination_by sizeOf seg

def extractList (mm : List (String × AMob)) (fps : ℚ) (l : List BSeg)
    (clips : List BClip) (ranges : List (Int × Int)) (off : Int) :
    List BClip × List (Int × Int) × Int :=
  match l with
  | [] => (clips, ranges, off)
  | c :: rest =>
      let r := extractSeg mm fps c clips ranges off
      extractList mm fps rest r.1 r.2.1 r.2.2
termination_by sizeOf l

end

-- ---------------------------------------------------------------------------
-- build_canonical.py: selection and build entry point
-- ---------------------------------------------------------------------------

/-- Python `int(q)` (truncation toward zero). -/
def pyIntOfRat (q : ℚ) : Int :=
  if 0 ≤ q then q.floor else -((-q).floor)

def pad2 (n : Int) : String :=
  if 0 ≤ n && n < 10 then "0" ++ toString n else toString n

/-- `frames_to_timecode`: Python floor division and modulo; `int(fps) = 0`
raises `ZeroDivisionError`, which the function's own `except` turns into
the default string. -/
def frames_to_timecode (frames : Int) (fps : ℚ) (is_drop : Bool) : String :=
  let fps_int := pyIntOfRat fps
  if fps_int == 0 then "10:00:00:00"
  else
    let hours := Int.fdiv frames (fps_int * 60 * 60)
    let minutes := Int.fdiv (Int.fmod frames (fps_int * 60 * 60)) (fps_int * 60)
    let seconds := Int.fdiv (Int.fmod frames (fps_int * 60)) fps_int
    let frame_num := Int.fmod frames fps_int
    pad2 hours ++ ":" ++ pad2 minutes ++ ":" ++ pad2 seconds ++ ":" ++ pad2 frame_num

mutual

/-- `_find_start_timecode`: first Timecode node found depth-first through
`components` and then `input_segments`. -/
def find_start_timecode (seg : BSeg) : Option Int :=
  match seg with
  | .mk tn _ st _ _ _ _ _ comps inps _ _ =>
      if pyInStr "Timecode" tn then some (st.getD 0)
      else
        let r1 :=
          match comps with
          | some cs => findStartList cs
          | none => none
        match r1 with
        | some v => some v
        | none =>
            match inps with
            | some l => findStartList l
            | none => none
termination_by sizeOf seg

def findStartList (l : List BSeg) : Option Int :=
  match l with
  | [] => none
  | c :: rest =>
      match find_start_timecode c with
      | some v => some v
      | none => findStartList rest
termination_by sizeOf l

end

/-- The picture/timecode slot scan of `select_top_sequence`: no `break`,
so the last Sequence slot and the last Timecode slot win. -/
def scanSlots : List BSlot → Option BSlot → Option BSlot →
    Option BSlot × Option BSlot
  | [], pic, tc => (pic, tc)
  | s :: rest, pic, tc =>
      match s.segment? with
      | none => scanSlots rest pic tc
      | some seg =>
          let t := seg.typeName
          if pyInStr "Sequence" t then scanSlots rest (some s) tc
          else if pyInStr "Timecode" t then scanSlots rest pic (some s)
          else scanSlots rest pic tc

def compMobsOf (f : AAFFile) : List AMob :=
  f.mobs.filter (fun m => m.slots?.isSome && m.typeName == "CompositionMob")

def timelineNameOf (m : AMob) : String :=
  match m.name? with
  | some n => if n != "" then n else "Unknown Timeline"
  | none => "Unknown Timeline"

/-- `select_top_sequence(aaf)`: pick the composition (prefer a name ending
in ".Exported.01", else the first), require a Sequence (picture) slot,
derive fps from its edit rate (25.0 when absent), and the start timecode
string from a Timecode node (`is_drop` is initialised False and never
updated by this code). -/
def select_top_sequence (f : AAFFile) :
    Except String (AMob × ℚ × Bool × String × String) :=
  match hc : compMobsOf f with
  | [] => .error "No CompositionMobs found in AAF"
  | m0 :: _ =>
      let selected :=
        ((compMobsOf f).find? (fun m =>
          match m.name? with
          | some n => n != "" && strEndsWith n ".Exported.01"
          | none => false)).getD m0
      let timeline_name := timelineNameOf selected
      let (pic?, tc?) := scanSlots (selected.slots?.getD []) none none
      match pic? with
      | none => .error ("No picture slot found in " ++ timeline_name)
      | some pic =>
          let fps := pic.edit_rate?.getD 25
          let is_drop := false
          let start_frames? :=
            match tc? with
            | some tcslot =>
                match tcslot.segment? with
                | some seg => find_start_timecode seg
                | none => none
            | none =>
                match pic.segment? with
                | some seg => find_start_timecode seg
                | none => none
          let start_tc_string :=
            match start_frames? with
            | some fr => frames_to_timecode fr fps is_drop
            | none => "10:00:00:00"
          .ok (selected, fps, is_drop, start_tc_string, timeline_name)

/-- The picture-slot loop of `extract_clips_from_comp_mob`: the first
Sequence slot wins with a `break`; otherwise the first non-Timecode slot
is kept as a fallback. -/
def pickPictureSlot : List BSlot → Option BSlot → Option BSlot
  | [], acc => acc
  | s :: rest, acc =>
      match s.segment? with
      | none => pickPictureSlot rest acc
      | some seg =>
          let t := seg.typeName
          if pyInStr "Sequence" t then some s
          else if !(pyInStr "Timecode" t) && acc.isNone then
            pickPictureSlot rest (some s)
          else pickPictureSlot rest acc

/-- `extract_clips_from_comp_mob`: a missing picture slot here only yields
an empty clip list (no abort). -/
def extract_clips_from_comp_mob (comp : AMob) (mm : List (String × AMob))
    (fps : ℚ) : List BClip :=
  match pickPictureSlot (comp.slots?.getD []) none with
  | none => []
  | some slot =>
      match slot.segment? with
      | none => []
      | some seg => (extractSeg mm fps seg [] [] 0).1

structure CanonTrack where
  clips : List BClip
deriving DecidableEq

structure CanonTimeline where
  name : String
  rate : Int
  start : String
  tracks : List CanonTrack
deriving DecidableEq

structure CanonDoc where
  timeline : CanonTimeline
deriving DecidableEq

/-- `build_canonical_from_aaf` over an opened file: the whole body sits in
a `try` whose handler re-raises `ValueError(f"AAF parsing failed: {e}")`,
so a selection failure surfaces as that single wrapped error; the
extraction functions themselves are total and never raise. -/
def build_canonical_from_aaf (f : AAFFile) : Except String CanonDoc :=
  match select_top_sequence f with
  | .error e => .error ("AAF parsing failed: " ++ e)
  | .ok (comp, fps, _is_drop, start_tc, tname) =>
      let mm := build_mob_map f
      let clips := extract_clips_from_comp_mob comp mm fps
      .ok { timeline := { name := tname, rate := pyIntOfRat fps,
                          start := start_tc, tracks := [{ clips := clips }] } }

-- ---------------------------------------------------------------------------
-- Derived predicates used in claim statements
-- ---------------------------------------------------------------------------

/-- A mob has a picture slot iff some slot carries a Sequence segment. -/
def hasPictureSlot (m : AMob) : Bool :=
  (m.slots?.getD []).any (fun s =>
    match s.segment? with
    | some seg => pyInStr "Sequence" seg.typeName
    | none => false)

/-- The composition `select_top_sequence` picks, when one exists. -/
def selectedComp (f : AAFFile) : Option AMob :=
  match compMobsOf f with
  | [] => none
  | m0 :: _ =>
      some (((compMobsOf f).find? (fun m =>
        match m.name? with
        | some n => n != "" && strEndsWith n ".Exported.01"
        | none => false)).getD m0)

/-- Selection fails iff the file has no composition mob, or the selected
composition has no picture (Sequence) slot. -/
def selectionFails (f : AAFFile) : Bool :=
  match selectedComp f with
  | none => true
  | some m => !hasPictureSlot m

def selErrMsg (f : AAFFile) : String :=
  match selectedComp f with
  | none => "No CompositionMobs found in AAF"
  | some m => "No picture slot found in " ++ timelineNameOf m

def buildErr? (r : Except String CanonDoc) : Option String :=
  match r with
  | .error e => some e
  | .ok _ => none

mutual

/-- Every node of a component tree declares a non-negative length (the
`getattr(..., "length", 0)` default counts as 0). -/
def compLensNonneg (c : PComp) : Bool :=
  match c with
  | .mk _ len _ _ _ _ _ _ _ _ comps =>
      decide (0 ≤ len.getD 0) && compsLensNonneg comps
termination_by sizeOf c

def compsLensNonneg (l : List PComp) : Bool :=
  match l with
  | [] => true
  | c :: rest => compLensNonneg c && compsLensNonneg rest
termination_by sizeOf l

end

/-- Chain of non-decreasing starts. -/
def startsNonDecr : List Int → Bool
  | [] => true
  | [_] => true
  | a :: b :: rest => decide (a ≤ b) && startsNonDecr (b :: rest)

/-- Every event id is "ev" followed by its 1-based position, counting from
`n` produced events already present. -/
def idsFrom : Nat → List PEvent → Bool
  | _, [] => true
  | n, ev :: rest => (ev.id == "ev" ++ toString (n + 1)) && idsFrom (n + 1) rest

/-- Whether all Timecode slots of a mob expose a `drop` attribute, so the
per-mob timecode harvest never aborts early. -/
def tcSlotsComplete (slots : List PSlot) : Bool :=
  slots.all (fun s =>
    match s.segment? with
    | some seg => seg.class_name != "Timecode" || seg.drop?.isSome
    | none => true)

/-- The first locator URL a mob's descriptor exposes (the value the path
harvest assigns unconditionally when present). -/
def mobLocURL (m : PMob) : Option String :=
  match m.descriptor? with
  | some desc =>
      match desc.locators? with
      | some locs => firstLocURL locs
      | none => none
  | none => none

/-- The last Timecode-classed segment among a mob's slots. -/
def lastTcSeg : List PSlot → Option PTcSeg
  | [] => none
  | s :: rest =>
      match lastTcSeg rest with
      | some seg => some seg
      | none =>
          match s.segment? with
          | some seg => if seg.class_name == "Timecode" then some seg else none
          | none => none

-- ---------------------------------------------------------------------------
-- Concrete inputs used by counterexamples and witnesses
-- ---------------------------------------------------------------------------

def minimalWrappedReport : ValidationReport :=
  { ok := true, errors := [],
    summary := { checked := 0, failed := 0, reason_codes := [] } }

/-- A sequence holding a single SourceClip of length 100. -/
def c2SourceClipComp : PComp :=
  .mk "SourceClip" (some 100) none none none none [] none none none []

def c2SequenceComp : PComp :=
  .mk "Sequence" (some 100) none none none none [] none none none [c2SourceClipComp]

def emptyPWalkState : PWalkState :=
  { events := [], sources := [], external_refs := [], offset := 0 }

def c2Walk : PWalkState := parse_sequence c2SequenceComp none [] 1 emptyPWalkState

/-- Two mobs referencing each other: a reference cycle. -/
def c4MobX : PMob :=
  { userComments? := none, taggedValues? := none, slots := [],
    descriptor? := none, referencedIds := some [some "Y"] }

def c4MobY : PMob :=
  { userComments? := none, taggedValues? := none, slots := [],
    descriptor? := none, referencedIds := some [some "X"] }

def c4CyclicMap : List (String × PMob) := [("X", c4MobX), ("Y", c4MobY)]

/-- A nearer mob exposing a locator path, then a farther mob exposing a
path only through its tagged values. -/
def c5MobA : PMob :=
  { userComments? := none, taggedValues? := none, slots := [],
    descriptor? := some { locators? := some [{ URLString? := some "file:///a.mov" }],
                          taggedValues? := none },
    referencedIds := some [some "B"] }

def c5MobB : PMob :=
  { userComments? := none, taggedValues? := none, slots := [],
    descriptor? := some { locators? := none,
                          taggedValues? := some [⟨"X", .str "file:///b.mov"⟩] },
    referencedIds := none }

def c5Map : List (String × PMob) := [("A", c5MobA), ("B", c5MobB)]

def c5Result : ResolveResult := resolve_umid_chain ⟨some "A"⟩ c5Map

/-- A schema-valid document with an out-of-order keyframe list and an
empty UMID-chain entry in the same event. -/
def c7Doc : Json :=
  minimalDocWith
    (.obj [("original", .obj [
      ("path", .str "file:///Volumes/Media/clip01.mov"),
      ("umid_chain", .arr [.str ""]),
      ("tape_id", .null),
      ("disk_label", .null),
      ("src_tc_start_frames", .null),
      ("src_rate_fps", .num 25),
      ("src_drop", .bool false)])])
    (.obj [
      ("name", .str "Resize"),
      ("on_filler", .bool false),
      ("parameters", .obj []),
      ("keyframes", .obj [("Level", .arr [
        .obj [("t", .num 1), ("v", .num 0)],
        .obj [("t", .num 0), ("v", .num 1)]])]),
      ("external_refs", .arr [])])

/-- A mob whose descriptor locator exposes a UNC url string. -/
def c8UncMob : AMob :=
  { typeName := "SourceMob", name? := none, slots? := none,
    mob_id? := some "u1", umid? := none, source_id? := none,
    package_id? := none,
    descriptor? := some { locator? := some { url_string? := some "\\\\SERVER\\share\\clip.mov" } } }

/-- A mob whose descriptor locator exposes a percent-encoded file URL. -/
def c8PctMob : AMob :=
  { typeName := "SourceMob", name? := none, slots? := none,
    mob_id? := some "u1", umid? := none, source_id? := none,
    package_id? := none,
    descriptor? := some { locator? := some { url_string? := some "file:///Volumes/My%20Media/clip%2301.mov" } } }

-- ---------------------------------------------------------------------------
-- Theorems
-- ---------------------------------------------------------------------------

/-- C1 (counterexample): the §8 minimal document with the FLAT source
object is rejected by `validate_canonical_json`: the schema requires the
`original` wrapper, so the report is not ok — one `oneOf` error at
`$.timeline.events.0.source` mapped to CANON-REQ-003 — contradicting the
claim of `ok = true` with zero errors. -/
theorem c1_flat_minimal_document_rejected :
    reportOk? (validate_canonical_json minimalFlatDoc) = some false ∧
    reportCodes? (validate_canonical_json minimalFlatDoc) = some ["CANON-REQ-003"] ∧
    reportPaths? (validate_canonical_json minimalFlatDoc) =
      some ["$.timeline.events.0.source"] := by
  refine ⟨by decide, by decide, by decide⟩

/-- C1 (amended): the same minimal document with the source wrapped in the
schema's `original` envelope validates with `ok = true` and an empty error
list. -/
theorem c1_wrapped_minimal_document_passes :
    validate_canonical_json minimalWrappedDoc = .ok minimalWrappedReport := rfl

/-- C3: `validate_canonical_json` is claimed never to raise, but on the
structurally malformed (yet valid-JSON) input `{"timeline": 5}` the
UMID-chain section — which sits outside the keyframe section's `try` —
evaluates `data.get("timeline", {}).get("events", [])` on the int `5` and
raises AttributeError, which propagates out of the validator and the CLI.
The file-missing and JSON-parse boundary paths do return exit code 2, and
a schema failure that does not crash returns 1. -/
theorem c3_validator_raises_on_malformed_timeline :
    validate_canonical_json (.obj [("timeline", .num 5)]) = .error .attributeError ∧
    validate_cli_exit_code (.parsed (.obj [("timeline", .num 5)])) =
      .error .attributeError ∧
    validate_cli_exit_code .missing = .ok 2 ∧
    validate_cli_exit_code (.badJson 3) = .ok 2 ∧
    validate_cli_exit_code (.parsed minimalFlatDoc) = .ok 1 ∧
    validate_cli_exit_code (.parsed minimalWrappedDoc) = .ok 0 := by
  refine ⟨rfl, rfl, rfl, rfl, rfl, rfl⟩

/-- C10: every report that `validate_canonical_json` returns is internally
consistent: `ok` holds iff `errors` is empty, `summary.failed` is the
error count, `summary.reason_codes` lists the error codes in order, and
`summary.checked` equals `summary.failed` (the counter counts errors
found, not checks performed). -/
theorem c10_report_internal_consistency (d : Json) (r : ValidationReport)
    (h : validate_canonical_json d = .ok r) :
    (r.ok = true ↔ r.errors = []) ∧
    r.summary.failed = r.errors.length ∧
    r.summary.reason_codes = r.errors.map (fun e => e.code) ∧
    r.summary.checked = r.summary.failed := by
  unfold validate_canonical_json at h
  cases hrun : run_additional_validations d with
  | error e => rw [hrun] at h; cases h
  | ok extra =>
      rw [hrun] at h
      cases h
      refine ⟨List.isEmpty_iff, rfl, rfl, ?_⟩
      simp [List.length_append]

theorem c10_report_internal_consistency_witness :
    (minimalWrappedReport.ok = true ↔ minimalWrappedReport.errors = []) ∧
    minimalWrappedReport.summary.failed = minimalWrappedReport.errors.length ∧
    minimalWrappedReport.summary.reason_codes =
      minimalWrappedReport.errors.map (fun e => e.code) ∧
    minimalWrappedReport.summary.checked = minimalWrappedReport.summary.failed :=
  c10_report_internal_consistency minimalWrappedDoc minimalWrappedReport rfl

theorem harvestTcSlots_umid (slots : List PSlot) (st : ResolveResult) :
    (harvestTcSlots slots st).umid_chain = st.umid_chain := by
  induction slots generalizing st with
  | nil => rfl
  | cons s rest ih =>
      unfold harvestTcSlots
      cases s.segment? with
      | none => exact ih st
      | some seg =>
          by_cases hcn : (seg.class_name == "Timecode") = true
          · simp only [hcn, if_true]
            cases seg.drop? with
            | none => rfl
            | some d => exact ih _
          · simp only [Bool.of_not_eq_true hcn, if_false]
            exact ih st

theorem harvestPath_umid (mob : PMob) (st : ResolveResult) :
    (harvestPath mob st).umid_chain = st.umid_chain := by
  unfold harvestPath
  repeat' split
  all_goals try rfl
  all_goals (dsimp only; split <;> rfl)

theorem processMob_umid (mob : PMob) (st : ResolveResult) :
    (processMob mob st).umid_chain = st.umid_chain := by
  unfold processMob
  rw [harvestPath_umid, harvestTcSlots_umid]
  by_cases h1 : pyValTruthy st.tape_id = true <;>
    by_cases h2 : pyValTruthy st.disk_label = true <;>
      simp [h1, h2]

theorem resolveLoop_chain (mob_map : List (String × PMob)) (visited : List String)
    (mob_id : String) (st : ResolveResult) :
    ∃ delta, (resolveLoop mob_map visited mob_id st).umid_chain =
        st.umid_chain ++ delta ∧ delta.Nodup ∧
      ∀ u ∈ delta, !(visited.contains u) ∧ (pyDictGet mob_map u).isSome := by
  induction visited, mob_id, st using resolveLoop.induct mob_map with
  | case1 visited mob_id st h =>
      have h' : mob_id ∈ visited := by simpa using h
      refine ⟨[], ?_, List.nodup_nil, by simp⟩
      rw [resolveLoop]
      simp [h']
  | case2 visited mob_id st h hfind =>
      have h' : mob_id ∉ visited := by simpa using h
      refine ⟨[], ?_, List.nodup_nil, by simp⟩
      rw [resolveLoop]
      simp only [dif_neg h]
      rw [hfind]
      simp
  | case3 visited mob_id st h mob hfind hnext =>
      have h' : mob_id ∉ visited := by simpa using h
      refine ⟨[mob_id], ?_, List.nodup_singleton _, ?_⟩
      · rw [resolveLoop]
        simp only [dif_neg h]
        rw [hfind]
        simp only [hnext]
        rw [processMob_umid]
      · intro u hu
        rcases List.mem_singleton.mp hu with rfl
        exact ⟨by simpa using h, by simp [hfind]⟩
  | case4 visited mob_id st h mob hfind nid hnext hnid =>
      have h' : mob_id ∉ visited := by simpa using h
      refine ⟨[mob_id], ?_, List.nodup_singleton _, ?_⟩
      · rw [resolveLoop]
        simp only [dif_neg h]
        rw [hfind]
        simp only [hnext, if_pos hnid]
        rw [processMob_umid]
      · intro u hu
        rcases List.mem_singleton.mp hu with rfl
        exact ⟨by simpa using h, by simp [hfind]⟩
  | case5 visited mob_id st h visited2 mob hfind st1 st2 nid hnext hnid ih =>
      have h' : mob_id ∉ visited := by simpa using h
      rcases ih with ⟨delta, hchain, hnodup, hmem⟩
      refine ⟨mob_id :: delta, ?_, ?_, ?_⟩
      · rw [resolveLoop]
        simp only [dif_neg h]
        rw [hfind]
        simp only [hnext, if_neg hnid]
        rw [hchain, processMob_umid]
        simp
      · refine List.nodup_cons.mpr ⟨?_, hnodup⟩
        intro hmemd
        have := (hmem mob_id hmemd).1
        simp [List.contains_cons] at this
        exact this (List.mem_cons_self _ _)
      · intro u hu
        rcases List.mem_cons.mp hu with rfl | hu2
        · exact ⟨by simpa using h, by simp [hfind]⟩
        · have := hmem u hu2
          refine ⟨?_, this.2⟩
          have h1 := this.1
          simp only [Bool.not_eq_true', List.contains_cons] at h1 ⊢
          exact (Bool.or_eq_false_iff.mp h1).2

theorem resolveLoop_stop (mm : List (String × PMob)) (v : List String)
    (id : String) (st : ResolveResult) (h : v.contains id = true) :
    resolveLoop mm v id st = st := by
  rw [resolveLoop]
  rw [dif_pos h]

theorem resolveLoop_step (mm : List (String × PMob)) (v : List String)
    (id : String) (st : ResolveResult) (h : v.contains id = false) :
    resolveLoop mm v id st =
      (match pyDictGet mm id with
       | none => st
       | some mob =>
           let st1 := { st with umid_chain := st.umid_chain ++ [id] }
           let st2 := processMob mob st1
           match nextHop mob with
           | none => st2
           | some nid => if nid == "" then st2 else resolveLoop mm (id :: v) nid st2) := by
  rw [resolveLoop]
  rw [dif_neg (by simpa using h)]
  cases hp : pyDictGet mm id with
  | none => rfl
  | some mob => rfl

/-- C4: for every mob map and every source clip — cyclic reference graphs
included — `resolve_umid_chain` is total (the visited set bounds the walk,
as witnessed by the decreasing measure of its Lean embedding), no mob
identifier is followed twice (the collected chain has no duplicates), and
every chain entry is a key the map resolved; the concrete two-mob cycle
X → Y → X stops after visiting each mob once, returning the partial chain
["X", "Y"]. -/
theorem c4_resolve_umid_chain_cycle_safe (clip : PSourceClip)
    (mob_map : List (String × PMob)) :
    (resolve_umid_chain clip mob_map).umid_chain.Nodup ∧
    (∀ u ∈ (resolve_umid_chain clip mob_map).umid_chain,
      (pyDictGet mob_map u).isSome) ∧
    (resolve_umid_chain ⟨some "X"⟩ c4CyclicMap).umid_chain = ["X", "Y"] := by
  refine ⟨?_, ?_, ?_⟩
  · unfold resolve_umid_chain
    cases clip.SourceID? with
    | none => exact List.nodup_nil
    | some mid =>
        by_cases hm : (mid == "") = true
        · simp [hm, emptyResolveResult]
        · dsimp only
          rw [if_neg hm]
          rcases resolveLoop_chain mob_map [] mid emptyResolveResult with
            ⟨delta, hchain, hnodup, _⟩
          rw [hchain]
          simpa [emptyResolveResult] using hnodup
  · unfold resolve_umid_chain
    cases clip.SourceID? with
    | none => intro u hu; cases hu
    | some mid =>
        by_cases hm : (mid == "") = true
        · simp [hm, emptyResolveResult]
        · dsimp only
          rw [if_neg hm]
          rcases resolveLoop_chain mob_map [] mid emptyResolveResult with
            ⟨delta, hchain, _, hmem⟩
          rw [hchain]
          intro u hu
          simp only [emptyResolveResult, List.nil_append] at hu
          exact (hmem u hu).2
  · show (resolveLoop c4CyclicMap [] "X" emptyResolveResult).umid_chain = ["X", "Y"]
    rw [resolveLoop_step _ _ _ _ (by decide)]
    rw [show pyDictGet c4CyclicMap "X" = some c4MobX from rfl]
    dsimp only
    rw [show nextHop c4MobX = some "Y" from rfl]
    dsimp only
    rw [if_neg (by decide)]
    rw [resolveLoop_step _ _ _ _ (by decide)]
    rw [show pyDictGet c4CyclicMap "Y" = some c4MobY from rfl]
    dsimp only
    rw [show nextHop c4MobY = some "X" from rfl]
    dsimp only
    rw [if_neg (by decide)]
    rw [resolveLoop_stop _ _ _ _ (by decide)]
    rw [processMob_umid, processMob_umid]
    rfl

/-- C8: when the resolved mob's locator exposes a URL string `s`, the path
stored by the resolvers is exactly `s` — for every string, so in
particular for UNC paths and percent-encoded file:// URLs — with no
rewriting, decoding or normalization: `resolve_source_path`
(build_canonical.py) returns `s` itself, and `resolve_umid_chain`
(parse_aaf.py) records `s` itself as the harvested path. -/
theorem c8_locator_path_byte_fidelity (s sid : String)
    (mm : List (String × AMob)) (mob : AMob)
    (hfind : pyDictGet mm sid = some mob)
    (hdesc : mob.descriptor? = some { locator? := some { url_string? := some s } }) :
    resolve_source_path (some sid) mm = some s ∧
    (resolve_umid_chain ⟨some "M"⟩
        [("M", { userComments? := none, taggedValues? := none, slots := [],
                 descriptor? := some { locators? := some [{ URLString? := some s }],
                                       taggedValues? := none },
                 referencedIds := none })]).path = some s := by
  constructor
  · unfold resolve_source_path
    dsimp only
    rw [hfind]
    dsimp only
    rw [hdesc]
  · show (resolveLoop _ [] "M" emptyResolveResult).path = some s
    rw [resolveLoop_step _ _ _ _ (by decide)]
    simp only [show ∀ m : PMob, pyDictGet [("M", m)] "M" = some m from fun m => rfl]
    simp [nextHop, processMob, harvestTags, harvestTcSlots, harvestPath,
      firstLocURL, firstTaggedPath, pathTruthy, dGet, pyDictGet, pyOr,
      pyValTruthy, emptyResolveResult]

/-- C8 witness: the UNC path and a percent-encoded file URL survive both
resolvers byte-for-byte. -/
theorem c8_locator_path_byte_fidelity_witness :
    resolve_source_path (some "u1") [("u1", c8UncMob)] =
      some "\\\\SERVER\\share\\clip.mov" ∧
    (resolve_umid_chain ⟨some "M"⟩
        [("M", { userComments? := none, taggedValues? := none, slots := [],
                 descriptor? := some { locators? := some [{ URLString? := some "file:///Volumes/My%20Media/clip%2301.mov" }], taggedValues? := none },
                 referencedIds := none })]).path =
      some "file:///Volumes/My%20Media/clip%2301.mov" := by
  constructor
  · exact (c8_locator_path_byte_fidelity "\\\\SERVER\\share\\clip.mov" "u1"
      [("u1", c8UncMob)] c8UncMob rfl rfl).1
  · exact (c8_locator_path_byte_fidelity "file:///Volumes/My%20Media/clip%2301.mov" "u1"
      [("u1", c8PctMob)] c8PctMob rfl rfl).2

theorem harvestTcSlots_path (slots : List PSlot) (st : ResolveResult) :
    (harvestTcSlots slots st).path = st.path := by
  induction slots generalizing st with
  | nil => rfl
  | cons s rest ih =>
      unfold harvestTcSlots
      cases s.segment? with
      | none => exact ih st
      | some seg =>
          by_cases hcn : (seg.class_name == "Timecode") = true
          · simp only [hcn, if_true]
            cases seg.drop? with
            | none => rfl
            | some d => exact ih _
          · simp only [Bool.of_not_eq_true hcn, if_false]
            exact ih st

theorem harvestTcSlots_tape (slots : List PSlot) (st : ResolveResult) :
    (harvestTcSlots slots st).tape_id = st.tape_id := by
  induction slots generalizing st with
  | nil => rfl
  | cons s rest ih =>
      unfold harvestTcSlots
      cases s.segment? with
      | none => exact ih st
      | some seg =>
          by_cases hcn : (seg.class_name == "Timecode") = true
          · simp only [hcn, if_true]
            cases seg.drop? with
            | none => rfl
            | some d => exact ih _
          · simp only [Bool.of_not_eq_true hcn, if_false]
            exact ih st

theorem harvestTcSlots_disk (slots : List PSlot) (st : ResolveResult) :
    (harvestTcSlots slots st).disk_label = st.disk_label := by
  induction slots generalizing st with
  | nil => rfl
  | cons s rest ih =>
      unfold harvestTcSlots
      cases s.segment? with
      | none => exact ih st
      | some seg =>
          by_cases hcn : (seg.class_name == "Timecode") = true
          · simp only [hcn, if_true]
            cases seg.drop? with
            | none => rfl
            | some d => exact ih _
          · simp only [Bool.of_not_eq_true hcn, if_false]
            exact ih st

theorem harvestPath_tape (mob : PMob) (st : ResolveResult) :
    (harvestPath mob st).tape_id = st.tape_id := by
  unfold harvestPath
  repeat' split
  all_goals try rfl
  all_goals (dsimp only; split <;> rfl)

theorem harvestPath_disk (mob : PMob) (st : ResolveResult) :
    (harvestPath mob st).disk_label = st.disk_label := by
  unfold harvestPath
  repeat' split
  all_goals try rfl
  all_goals (dsimp only; split <;> rfl)

/-- The net effect of a mob's Timecode-slot harvest when no slot aborts:
the LAST Timecode slot's start/rate/drop win, independently of the values
already collected; a mob with no Timecode slot leaves the state alone. -/
theorem harvestTcSlots_fields (slots : List PSlot) (st : ResolveResult)
    (h : tcSlotsComplete slots = true) :
    (match lastTcSeg slots with
     | some seg =>
         (harvestTcSlots slots st).src_tc_start_frames = seg.start? ∧
         (harvestTcSlots slots st).src_rate_fps = seg.rate? ∧
         (harvestTcSlots slots st).src_drop = seg.drop?
     | none => harvestTcSlots slots st = st) := by
  induction slots generalizing st with
  | nil => rfl
  | cons s rest ih =>
      have hcomp : tcSlotsComplete rest = true := by
        have := h
        unfold tcSlotsComplete at this ⊢
        simp only [List.all_cons, Bool.and_eq_true] at this
        exact this.2
      have hs := by
        have := h
        unfold tcSlotsComplete at this
        simp only [List.all_cons, Bool.and_eq_true] at this
        exact this.1
      unfold harvestTcSlots lastTcSeg
      cases hseg : s.segment? with
      | none =>
          cases hlast : lastTcSeg rest with
          | some seg' =>
              have := ih st hcomp
              rw [hlast] at this
              simpa using this
          | none =>
              have := ih st hcomp
              rw [hlast] at this
              simpa using this
      | some seg =>
          by_cases hcn : (seg.class_name == "Timecode") = true
          · have hdrop : seg.drop?.isSome := by
              rw [hseg] at hs
              simp only [Bool.or_eq_true, bne_iff_ne, ne_eq,
                decide_eq_true_eq] at hs
              rcases hs with hbad | hgood
              · exact absurd (by simpa using hcn) (by simpa using hbad)
              · exact hgood
            rcases Option.isSome_iff_exists.mp hdrop with ⟨d, hd⟩
            simp only [hcn, if_true, hd]
            cases hlast : lastTcSeg rest with
            | some seg' =>
                have := ih
                  { st with src_tc_start_frames := seg.start?,
                            src_rate_fps := seg.rate?, src_drop := some d } hcomp
                rw [hlast] at this
                simpa using this
            | none =>
                have := ih
                  { st with src_tc_start_frames := seg.start?,
                            src_rate_fps := seg.rate?, src_drop := some d } hcomp
                rw [hlast] at this
                rw [this]
                simp [hd]
          · simp only [Bool.of_not_eq_true hcn, if_false]
            cases hlast : lastTcSeg rest with
            | some seg' =>
                have := ih st hcomp
                rw [hlast] at this
                simpa using this
            | none =>
                have := ih st hcomp
                rw [hlast] at this
                simpa [Bool.of_not_eq_true hcn] using this

theorem processMob_tape_eq (m : PMob) (st : ResolveResult) :
    (processMob m st).tape_id =
      if (!pyValTruthy st.tape_id) = true then
        pyOr (dGet (harvestTags m.userComments?) "TapeID")
          (dGet (harvestTags m.userComments?) "Tape Name")
      else st.tape_id := by
  unfold processMob
  rw [harvestPath_tape, harvestTcSlots_tape]
  split <;> split <;> first | rfl | simp_all

theorem processMob_disk_eq (m : PMob) (st : ResolveResult) :
    (processMob m st).disk_label =
      if (!pyValTruthy st.disk_label) = true then
        dGet (harvestTags m.taggedValues?) "_IMPORTDISKLABEL"
      else st.disk_label := by
  unfold processMob
  rw [harvestPath_disk, harvestTcSlots_disk]
  split <;> split <;> first | rfl | simp_all

theorem harvestPath_path_locURL (m : PMob) (st : ResolveResult) (u : String)
    (hurl : mobLocURL m = some u) (hu : u ≠ "") :
    (harvestPath m st).path = some u := by
  unfold mobLocURL at hurl
  unfold harvestPath
  cases hd : m.descriptor? with
  | none => rw [hd] at hurl; cases hurl
  | some desc =>
      rw [hd] at hurl
      dsimp only at hurl ⊢
      cases hl : desc.locators? with
      | none => rw [hl] at hurl; cases hurl
      | some locs =>
          rw [hl] at hurl
          dsimp only at hurl ⊢
          cases hf : firstLocURL locs with
          | none => rw [hf] at hurl; cases hurl
          | some v =>
              rw [hf] at hurl
              dsimp only at hurl ⊢
              cases hurl
              have hpt : pathTruthy (some u) = true := by
                simpa [pathTruthy] using hu
              simp [hpt]

theorem harvestPath_path_none (m : PMob) (st : ResolveResult)
    (hurl : mobLocURL m = none) (ht : pathTruthy st.path = true) :
    (harvestPath m st).path = st.path := by
  unfold mobLocURL at hurl
  unfold harvestPath
  cases hd : m.descriptor? with
  | none => rfl
  | some desc =>
      rw [hd] at hurl
      dsimp only at hurl ⊢
      cases hl : desc.locators? with
      | none => simp [ht]
      | some locs =>
          rw [hl] at hurl
          dsimp only at hurl ⊢
          rw [hurl]
          simp [ht]

/-- C5 (amended): the precedence rules `resolve_umid_chain` actually
implements.  Tape id and disk label are nearest-wins: once truthy they are
never changed, by one mob step or by the rest of the chain walk, and a mob
fills them only while they are falsy.  The source-timecode triple is
last-wins: a mob whose slots harvest completely imposes its last Timecode
slot's start/rate/drop regardless of what was collected before.  The
locator path is last-wins among locator harvests: a mob exposing a truthy
locator URL overwrites the path unconditionally; but the tagged-value
fallback fires only while the path is falsy, so a farther mob's
tagged-value path never displaces a nearer mob's truthy path (see the
counterexample for the claim's stronger reading). -/
theorem c5_resolver_precedence :
    (∀ (m : PMob) (st : ResolveResult), pyValTruthy st.tape_id = true →
       (processMob m st).tape_id = st.tape_id) ∧
    (∀ (m : PMob) (st : ResolveResult), pyValTruthy st.disk_label = true →
       (processMob m st).disk_label = st.disk_label) ∧
    (∀ (mm : List (String × PMob)) (v : List String) (id : String)
       (st : ResolveResult), pyValTruthy st.tape_id = true →
       (resolveLoop mm v id st).tape_id = st.tape_id) ∧
    (∀ (m : PMob) (st : ResolveResult), pyValTruthy st.tape_id = false →
       (processMob m st).tape_id =
         pyOr (dGet (harvestTags m.userComments?) "TapeID")
           (dGet (harvestTags m.userComments?) "Tape Name")) ∧
    (∀ (slots : List PSlot) (st : ResolveResult) (seg : PTcSeg),
       tcSlotsComplete slots = true → lastTcSeg slots = some seg →
       (harvestTcSlots slots st).src_tc_start_frames = seg.start? ∧
       (harvestTcSlots slots st).src_rate_fps = seg.rate? ∧
       (harvestTcSlots slots st).src_drop = seg.drop?) ∧
    (∀ (m : PMob) (st : ResolveResult) (u : String), mobLocURL m = some u →
       u ≠ "" → (processMob m st).path = some u) ∧
    (∀ (m : PMob) (st : ResolveResult), mobLocURL m = none →
       pathTruthy st.path = true → (processMob m st).path = st.path) := by
  have htape : ∀ (m : PMob) (st : ResolveResult), pyValTruthy st.tape_id = true →
      (processMob m st).tape_id = st.tape_id := by
    intro m st h
    rw [processMob_tape_eq]
    simp [h]
  refine ⟨htape, ?_, ?_, ?_, ?_, ?_, ?_⟩
  · intro m st h
    rw [processMob_disk_eq]
    simp [h]
  · intro mm v id st h
    induction v, id, st using resolveLoop.induct mm with
    | case1 visited mob_id st hv =>
        rw [resolveLoop_stop _ _ _ _ hv]
    | case2 visited mob_id st hv hfind =>
        rw [resolveLoop_step _ _ _ _ (by simpa using hv), hfind]
    | case3 visited mob_id st hv mob hfind hnext =>
        rw [resolveLoop_step _ _ _ _ (by simpa using hv), hfind]
        dsimp only
        rw [hnext]
        exact htape mob _ h
    | case4 visited mob_id st hv mob hfind nid hnext hnid =>
        rw [resolveLoop_step _ _ _ _ (by simpa using hv), hfind]
        dsimp only
        rw [hnext]
        dsimp only
        rw [if_pos (by simpa using hnid)]
        exact htape mob _ h
    | case5 visited mob_id st hv visited2 mob hfind st1 st2 nid hnext hnid ih =>
        rw [resolveLoop_step _ _ _ _ (by simpa using hv), hfind]
        dsimp only
        rw [hnext]
        dsimp only
        rw [if_neg (by simpa using hnid)]
        have hstep := htape mob { st with umid_chain := st.umid_chain ++ [mob_id] } h
        rw [ih (by rw [hstep]; exact h)]
        exact hstep
  · intro m st h
    rw [processMob_tape_eq]
    simp [h]
  · intro slots st seg hcomp hlast
    have := harvestTcSlots_fields slots st hcomp
    rw [hlast] at this
    exact this
  · intro m st u hurl hu
    unfold processMob
    exact harvestPath_path_locURL m _ u hurl hu
  · intro m st hurl ht
    unfold processMob
    rw [harvestPath_path_none m _ hurl
      (by rw [harvestTcSlots_path]; split <;> split <;> exact ht)]
    rw [harvestTcSlots_path]
    split <;> split <;> rfl

/-- C5 (counterexample): the claim's reading — "the descriptor/locator
path ends up holding the value harvested at or nearest the chain's end, a
later mob's values take precedence" — fails: when the nearer mob A exposes
a locator path and the farther chain-end mob B offers a path only through
its tagged values (a value `decode_possible_path` accepts, as the second
conjunct shows), the resolver keeps A's path, because the tagged-value
fallback only runs while the path is still falsy. -/
theorem c5_chain_end_path_counterexample :
    (resolve_umid_chain ⟨some "A"⟩ c5Map).path = some "file:///a.mov" ∧
    decode_possible_path (PyVal.str "file:///b.mov") = some "file:///b.mov" := by
  have hA : ∀ st : ResolveResult, (processMob c5MobA st).path = some "file:///a.mov" := by
    intro st
    unfold processMob
    exact harvestPath_path_locURL c5MobA _ _ rfl (by decide)
  have hB : ∀ st : ResolveResult, pathTruthy st.path = true →
      (processMob c5MobB st).path = st.path := by
    intro st h
    unfold processMob
    rw [harvestPath_path_none c5MobB _ rfl
      (by rw [harvestTcSlots_path]; split <;> split <;> exact h)]
    rw [harvestTcSlots_path]
    split <;> split <;> rfl
  constructor
  · show (resolveLoop c5Map [] "A" emptyResolveResult).path = some "file:///a.mov"
    rw [resolveLoop_step _ _ _ _ (by decide)]
    rw [show pyDictGet c5Map "A" = some c5MobA from rfl]
    dsimp only
    rw [show nextHop c5MobA = some "B" from rfl]
    dsimp only
    rw [if_neg (by decide)]
    rw [resolveLoop_step _ _ _ _ (by decide)]
    rw [show pyDictGet c5Map "B" = some c5MobB from rfl]
    dsimp only
    rw [show nextHop c5MobB = none from rfl]
    dsimp only
    have hpA := hA { emptyResolveResult with
                     umid_chain := emptyResolveResult.umid_chain ++ ["A"] }
    refine Eq.trans (hB _ ?_) ?_
    · show pathTruthy (processMob c5MobA { emptyResolveResult with
        umid_chain := emptyResolveResult.umid_chain ++ ["A"] }).path = true
      rw [hpA]
      rfl
    · show (processMob c5MobA { emptyResolveResult with
        umid_chain := emptyResolveResult.umid_chain ++ ["A"] }).path = some "file:///a.mov"
      exact hpA
  · decide

/-- C5 witness: the amended precedence facts at concrete inputs. -/
theorem c5_resolver_precedence_witness :
    (processMob c5MobB
      { emptyResolveResult with tape_id := .str "TAPE1" }).tape_id = PyVal.str "TAPE1" ∧
    (processMob c5MobA emptyResolveResult).path = some "file:///a.mov" ∧
    (processMob c5MobB
      { emptyResolveResult with path := some "file:///a.mov" }).path =
      some "file:///a.mov" := by
  refine ⟨?_, ?_, ?_⟩
  · exact c5_resolver_precedence.1 c5MobB _ (by decide)
  · exact c5_resolver_precedence.2.2.2.2.2.1 c5MobA _ "file:///a.mov" rfl (by decide)
  · exact c5_resolver_precedence.2.2.2.2.2.2 c5MobB _ rfl (by decide)

/-- Invariant of the processed-ranges guard: starting from clips whose
ranges are all registered and pairwise distinct, a walk only appends clips
with fresh, immediately-registered ranges, so distinctness is preserved
and the range set only grows. -/
theorem extract_good (mm : List (String × AMob)) (fps : ℚ) :
    ∀ (l : List BSeg) (clips : List BClip) (ranges : List (Int × Int)) (off : Int)
      (clips' : List BClip) (ranges' : List (Int × Int)) (off' : Int),
      extractList mm fps l clips ranges off = (clips', ranges', off') →
      (∀ c ∈ clips, (c.clip_in, c.clip_out) ∈ ranges) →
      clips.Pairwise (fun a b => (a.clip_in, a.clip_out) ≠ (b.clip_in, b.clip_out)) →
      (∀ c ∈ clips', (c.clip_in, c.clip_out) ∈ ranges') ∧
        clips'.Pairwise (fun a b => (a.clip_in, a.clip_out) ≠ (b.clip_in, b.clip_out)) ∧
        (∀ r ∈ ranges, r ∈ ranges') := by
  refine extractList.induct mm fps
    (fun seg clips ranges off => ∀ clips' ranges' off',
      extractSeg mm fps seg clips ranges off = (clips', ranges', off') →
      (∀ c ∈ clips, (c.clip_in, c.clip_out) ∈ ranges) →
      clips.Pairwise (fun a b => (a.clip_in, a.clip_out) ≠ (b.clip_in, b.clip_out)) →
      (∀ c ∈ clips', (c.clip_in, c.clip_out) ∈ ranges') ∧
        clips'.Pairwise (fun a b => (a.clip_in, a.clip_out) ≠ (b.clip_in, b.clip_out)) ∧
        (∀ r ∈ ranges, r ∈ ranges'))
    (fun l clips ranges off => ∀ clips' ranges' off',
      extractList mm fps l clips ranges off = (clips', ranges', off') →
      (∀ c ∈ clips, (c.clip_in, c.clip_out) ∈ ranges) →
      clips.Pairwise (fun a b => (a.clip_in, a.clip_out) ≠ (b.clip_in, b.clip_out)) →
      (∀ c ∈ clips', (c.clip_in, c.clip_out) ∈ ranges') ∧
        clips'.Pairwise (fun a b => (a.clip_in, a.clip_out) ≠ (b.clip_in, b.clip_out)) ∧
        (∀ r ∈ ranges, r ∈ ranges'))
    ?c1 ?c2 ?c3 ?c4 ?c5 ?c6 ?c7 ?c8 ?c9 ?c10 ?c11 ?c12 ?c13 ?c14 ?c15 ?c16 ?c17 ?c18 ?c19 ?c20 ?c21

  case c1 =>
    intro clips ranges off tn len st nm sid odn oda hod inps segs innps hs cs ih
    intro clips' ranges' off' heq h1 h2
    rw [extractSeg.eq_def] at heq
    dsimp only at heq
    rw [if_pos hs] at heq
    exact ih clips' ranges' off' heq h1 h2
  case c2 =>
    intro clips ranges off tn len st nm sid odn oda hod inps segs innps hs
    intro clips' ranges' off' heq h1 h2
    rw [extractSeg.eq_def] at heq
    dsimp only at heq
    rw [if_pos hs] at heq
    cases heq
    exact ⟨h1, h2, fun r hr => hr⟩
  case c3 =>
    intro clips ranges off tn len st nm sid odn oda hod comps inps segs innps hns ho opl opr hcon
    intro clips' ranges' off' heq h1 h2
    rw [extractSeg.eq_def] at heq
    dsimp only at heq
    rw [if_neg hns, if_pos ho] at heq
    rw [if_pos hcon] at heq
    cases heq
    exact ⟨h1, h2, fun r hr => hr⟩
  case c4 =>
    intro clips ranges off tn len st nm sid odn oda hod comps inps segs innps hns ho opl opr hcon
    intro clips' ranges' off' heq h1 h2
    rw [extractSeg.eq_def] at heq
    dsimp only at heq
    rw [if_neg hns, if_pos ho] at heq
    rw [if_neg hcon] at heq
    injection heq with e1 erest
    injection erest with e2 e3
    subst e1
    subst e2
    refine ⟨?_, ?_, fun r hr => List.mem_cons_of_mem _ hr⟩
    · intro c hc
      rcases List.mem_append.mp hc with hcl | hcl
      · exact List.mem_cons_of_mem _ (h1 c hcl)
      · rw [List.mem_singleton] at hcl
        subst hcl
        split <;> exact List.mem_cons_self _ _
    · rw [List.pairwise_append]
      refine ⟨h2, List.pairwise_singleton _ _, ?_⟩
      intro a ha b hb
      rw [List.mem_singleton] at hb
      subst hb
      intro hEq
      apply hcon
      have haR := h1 a ha
      split at hEq <;> (rw [hEq] at haR; simpa using haR)
  case c5 =>
    intro clips ranges off tn len st nm sid odn oda hod comps inps segs innps hns hno hsc cl cr hcon
    intro clips' ranges' off' heq h1 h2
    rw [extractSeg.eq_def] at heq
    dsimp only at heq
    rw [if_neg hns, if_neg hno, if_pos hsc] at heq
    rw [if_pos hcon] at heq
    cases heq
    exact ⟨h1, h2, fun r hr => hr⟩
  case c6 =>
    intro clips ranges off tn len st nm sid odn oda hod comps inps segs innps hns hno hsc cl cr hcon
    intro clips' ranges' off' heq h1 h2
    rw [extractSeg.eq_def] at heq
    dsimp only at heq
    rw [if_neg hns, if_neg hno, if_pos hsc] at heq
    rw [if_neg hcon] at heq
    injection heq with e1 erest
    injection erest with e2 e3
    subst e1
    subst e2
    refine ⟨?_, ?_, fun r hr => List.mem_cons_of_mem _ hr⟩
    · intro c hc
      rcases List.mem_append.mp hc with hcl | hcl
      · exact List.mem_cons_of_mem _ (h1 c hcl)
      · rw [List.mem_singleton] at hcl
        subst hcl
        exact List.mem_cons_self _ _
    · rw [List.pairwise_append]
      refine ⟨h2, List.pairwise_singleton _ _, ?_⟩
      intro a ha b hb
      rw [List.mem_singleton] at hb
      subst hb
      intro hEq
      apply hcon
      have haR := h1 a ha
      rw [hEq] at haR
      simpa using haR
  case c7 =>
    intro clips ranges off tn len st nm sid odn oda hod comps inps segs innps hns hno hnsc hf
    intro clips' ranges' off' heq h1 h2
    rw [extractSeg.eq_def] at heq
    dsimp only at heq
    rw [if_neg hns, if_neg hno, if_neg hnsc, if_pos hf] at heq
    cases heq
    exact ⟨h1, h2, fun r hr => hr⟩
  case c8 =>
    intro clips ranges off tn len st nm sid odn oda hod comps inps segs innps hns hno hnsc hnf hscope
    intro clips' ranges' off' heq h1 h2
    rw [extractSeg.eq_def] at heq
    dsimp only at heq
    rw [if_neg hns, if_neg hno, if_neg hnsc, if_neg hnf, if_pos hscope] at heq
    cases heq
    exact ⟨h1, h2, fun r hr => hr⟩
  case c9 =>
    intro clips ranges off tn len st nm sid odn oda hod comps inps segs innps hns hno hnsc hnf hnscope htr
    intro clips' ranges' off' heq h1 h2
    rw [extractSeg.eq_def] at heq
    dsimp only at heq
    rw [if_neg hns, if_neg hno, if_neg hnsc, if_neg hnf, if_neg hnscope, if_pos htr] at heq
    cases heq
    exact ⟨h1, h2, fun r hr => hr⟩
  case c10 =>
    intro clips ranges off tn len st nm sid odn oda hod comps inps segs innps hns hno hnsc hnf hnscope hntr htc
    intro clips' ranges' off' heq h1 h2
    rw [extractSeg.eq_def] at heq
    dsimp only at heq
    rw [if_neg hns, if_neg hno, if_neg hnsc, if_neg hnf, if_neg hnscope, if_neg hntr, if_pos htc] at heq
    cases heq
    exact ⟨h1, h2, fun r hr => hr⟩
  case c11 =>
    intro clips ranges off tn len st nm sid odn oda hod comps inps innps hns hno hnsc hnf hnscope hntr hntc cs hempty
    intro clips' ranges' off' heq h1 h2
    rw [extractSeg.eq_def] at heq
    dsimp only at heq
    rw [if_neg hns, if_neg hno, if_neg hnsc, if_neg hnf, if_neg hnscope, if_neg hntr, if_neg hntc] at heq
    try dsimp only at heq
    rw [if_pos hempty] at heq
    cases heq
    exact ⟨h1, h2, fun r hr => hr⟩
  case c12 =>
    intro clips ranges off tn len st nm sid odn oda hod comps inps innps hns hno hnsc hnf hnscope hntr hntc cs hne ih
    intro clips' ranges' off' heq h1 h2
    rw [extractSeg.eq_def] at heq
    dsimp only at heq
    rw [if_neg hns, if_neg hno, if_neg hnsc, if_neg hnf, if_neg hnscope, if_neg hntr, if_neg hntc] at heq
    try dsimp only at heq
    rw [if_neg hne] at heq
    exact ih clips' ranges' off' heq h1 h2
  case c13 =>
    intro clips ranges off tn len st nm sid odn oda hod inps innps hns hno hnsc hnf hnscope hntr hntc cs hempty
    intro clips' ranges' off' heq h1 h2
    rw [extractSeg.eq_def] at heq
    dsimp only at heq
    rw [if_neg hns, if_neg hno, if_neg hnsc, if_neg hnf, if_neg hnscope, if_neg hntr, if_neg hntc] at heq
    try dsimp only at heq
    rw [if_pos hempty] at heq
    cases heq
    exact ⟨h1, h2, fun r hr => hr⟩
  case c14 =>
    intro clips ranges off tn len st nm sid odn oda hod inps innps hns hno hnsc hnf hnscope hntr hntc cs hne ih
    intro clips' ranges' off' heq h1 h2
    rw [extractSeg.eq_def] at heq
    dsimp only at heq
    rw [if_neg hns, if_neg hno, if_neg hnsc, if_neg hnf, if_neg hnscope, if_neg hntr, if_neg hntc] at heq
    try dsimp only at heq
    rw [if_neg hne] at heq
    exact ih clips' ranges' off' heq h1 h2
  case c15 =>
    intro clips ranges off tn len st nm sid odn oda hod inps hns hno hnsc hnf hnscope hntr hntc cs hempty
    intro clips' ranges' off' heq h1 h2
    rw [extractSeg.eq_def] at heq
    dsimp only at heq
    rw [if_neg hns, if_neg hno, if_neg hnsc, if_neg hnf, if_neg hnscope, if_neg hntr, if_neg hntc] at heq
    try dsimp only at heq
    rw [if_pos hempty] at heq
    cases heq
    exact ⟨h1, h2, fun r hr => hr⟩
  case c16 =>
    intro clips ranges off tn len st nm sid odn oda hod inps hns hno hnsc hnf hnscope hntr hntc cs hne ih
    intro clips' ranges' off' heq h1 h2
    rw [extractSeg.eq_def] at heq
    dsimp only at heq
    rw [if_neg hns, if_neg hno, if_neg hnsc, if_neg hnf, if_neg hnscope, if_neg hntr, if_neg hntc] at heq
    try dsimp only at heq
    rw [if_neg hne] at heq
    exact ih clips' ranges' off' heq h1 h2
  case c17 =>
    intro clips ranges off tn len st nm sid odn oda hod  hns hno hnsc hnf hnscope hntr hntc cs hempty
    intro clips' ranges' off' heq h1 h2
    rw [extractSeg.eq_def] at heq
    dsimp only at heq
    rw [if_neg hns, if_neg hno, if_neg hnsc, if_neg hnf, if_neg hnscope, if_neg hntr, if_neg hntc] at heq
    try dsimp only at heq
    rw [if_pos hempty] at heq
    cases heq
    exact ⟨h1, h2, fun r hr => hr⟩
  case c18 =>
    intro clips ranges off tn len st nm sid odn oda hod  hns hno hnsc hnf hnscope hntr hntc cs hne ih
    intro clips' ranges' off' heq h1 h2
    rw [extractSeg.eq_def] at heq
    dsimp only at heq
    rw [if_neg hns, if_neg hno, if_neg hnsc, if_neg hnf, if_neg hnscope, if_neg hntr, if_neg hntc] at heq
    try dsimp only at heq
    rw [if_neg hne] at heq
    exact ih clips' ranges' off' heq h1 h2
  case c19 =>
    intro clips ranges off tn len st nm sid odn oda hod hns hno hnsc hnf hnscope hntr hntc
    intro clips' ranges' off' heq h1 h2
    rw [extractSeg.eq_def] at heq
    dsimp only at heq
    rw [if_neg hns, if_neg hno, if_neg hnsc, if_neg hnf, if_neg hnscope, if_neg hntr, if_neg hntc] at heq
    try dsimp only at heq
    cases heq
    exact ⟨h1, h2, fun r hr => hr⟩
  case c20 =>
    intro clips ranges off clips' ranges' off' heq h1 h2
    rw [extractList] at heq
    cases heq
    exact ⟨h1, h2, fun r hr => hr⟩
  case c21 =>
    intro clips ranges off c rest r ih1 ih2 clips' ranges' off' heq h1 h2
    rw [extractList] at heq
    obtain ⟨m1, p1, s1⟩ := ih1 r.1 r.2.1 r.2.2 rfl h1 h2
    obtain ⟨m2, p2, s2⟩ := ih2 clips' ranges' off' heq m1 p1
    exact ⟨m2, p2, fun x hx => s2 x (s1 x hx)⟩

/-- C6: the processed-ranges guard of `_extract_clips_recursive` ensures
at most one event per exact frame range: every walk of a segment tree
emits clips with pairwise-distinct `(in, out)` ranges, and an
OperationGroup or standalone SourceClip whose range is already in the
processed set emits nothing and only advances the offset by its length. -/
theorem c6_at_most_one_event_per_range (mm : List (String × AMob)) (fps : ℚ)
    (seg : BSeg) (clips : List BClip) (ranges : List (Int × Int)) (off : Int) :
    (extractSeg mm fps seg [] [] 0).1.Pairwise
      (fun a b => (a.clip_in, a.clip_out) ≠ (b.clip_in, b.clip_out)) ∧
    (pyInStr "Sequence" seg.typeName = false →
      pyInStr "OperationGroup" seg.typeName = true →
      ranges.contains (off, off + seg.length?.getD 0) = true →
      extractSeg mm fps seg clips ranges off =
        (clips, ranges, off + seg.length?.getD 0)) ∧
    (pyInStr "Sequence" seg.typeName = false →
      pyInStr "OperationGroup" seg.typeName = false →
      pyInStr "SourceClip" seg.typeName = true →
      ranges.contains (off, off + seg.length?.getD 0) = true →
      extractSeg mm fps seg clips ranges off =
        (clips, ranges, off + seg.length?.getD 0)) := by
  refine ⟨?_, ?_, ?_⟩
  · have hlist : extractList mm fps [seg] [] [] 0 =
        extractSeg mm fps seg [] [] 0 := by
      rw [extractList, extractList]
    have := extract_good mm fps [seg] [] [] 0
      (extractList mm fps [seg] [] [] 0).1
      (extractList mm fps [seg] [] [] 0).2.1
      (extractList mm fps [seg] [] [] 0).2.2
      rfl (by intro c hc; cases hc) List.Pairwise.nil
    rw [hlist] at this
    exact this.2.1
  · intro hns ho hcon
    cases seg with
    | mk tn len st nm sid odn oda hod comps inps segs innps =>
        rw [extractSeg.eq_def]
        dsimp only
        rw [if_neg (by simp [BSeg.typeName] at hns; simp [hns]), if_pos (by simpa [BSeg.typeName] using ho)]
        rw [if_pos (by simpa [BSeg.length?] using hcon)]
        simp [BSeg.length?]
  · intro hns hno hsc hcon
    cases seg with
    | mk tn len st nm sid odn oda hod comps inps segs innps =>
        rw [extractSeg.eq_def]
        dsimp only
        rw [if_neg (by simp [BSeg.typeName] at hns; simp [hns]),
          if_neg (by simp [BSeg.typeName] at hno; simp [hno]),
          if_pos (by simpa [BSeg.typeName] using hsc)]
        rw [if_pos (by simpa [BSeg.length?] using hcon)]
        simp [BSeg.length?]

/-- C6 witness: an OperationGroup of length 10 over an already-processed
range `(0, 10)` emits nothing and advances the offset to 10. -/
theorem c6_at_most_one_event_per_range_witness :
    extractSeg [] 25 (.mk "OperationGroup" (some 10) none none none none none false
        none none none none) [] [(0, 10)] 0 = ([], [(0, 10)], 10) := by
  have h := (c6_at_most_one_event_per_range [] 25
    (.mk "OperationGroup" (some 10) none none none none none false
      none none none none) [] [(0, 10)] 0).2.1 (by decide) (by decide) (by decide)
  simpa using h

theorem scanSlots_fst_isSome (slots : List BSlot) (pic tc : Option BSlot) :
    (scanSlots slots pic tc).1.isSome =
      (pic.isSome || slots.any (fun s =>
        match s.segment? with
        | some seg => pyInStr "Sequence" seg.typeName
        | none => false)) := by
  induction slots generalizing pic tc with
  | nil => simp [scanSlots]
  | cons s rest ih =>
      unfold scanSlots
      cases hseg : s.segment? with
      | none => rw [ih]; simp [List.any_cons, hseg]
      | some seg =>
          dsimp only
          by_cases hs : pyInStr "Sequence" seg.typeName = true
          · rw [if_pos hs, ih]
            simp [List.any_cons, hseg, hs]
          · by_cases ht : pyInStr "Timecode" seg.typeName = true
            · rw [if_neg hs, if_pos ht, ih]
              simp [List.any_cons, hseg, Bool.of_not_eq_true hs]
            · rw [if_neg hs, if_neg ht, ih]
              simp [List.any_cons, hseg, Bool.of_not_eq_true hs]

/-- C9: the builder aborts exactly on selection failure — no composition
mob in the file, or no Sequence (picture) slot in the selected composition
— and the abort surfaces as the single wrapped error string
"AAF parsing failed: ..."; once selection succeeds, the build returns a
document (unresolved chain or effect data never raises, the extraction
functions being total and defaulting to null/empty fields). -/
theorem c9_build_aborts_iff_selection_failure (f : AAFFile) :
    ((∃ e, build_canonical_from_aaf f = .error e) ↔ selectionFails f = true) ∧
    (∀ e, build_canonical_from_aaf f = .error e →
      e = "AAF parsing failed: " ++ selErrMsg f) := by
  unfold build_canonical_from_aaf select_top_sequence selectionFails selErrMsg selectedComp
  cases hc : compMobsOf f with
  | nil =>
      refine ⟨⟨fun _ => rfl, fun _ => ⟨_, rfl⟩⟩, ?_⟩
      intro e he
      cases he
      rfl
  | cons m0 rest =>
      cases hscan : scanSlots ((((m0 :: rest).find? (fun m =>
          match m.name? with
          | some n => n != "" && strEndsWith n ".Exported.01"
          | none => false)).getD m0).slots?.getD []) none none with
      | mk pic tc =>
          have hps := scanSlots_fst_isSome ((((m0 :: rest).find? (fun m =>
            match m.name? with
            | some n => n != "" && strEndsWith n ".Exported.01"
            | none => false)).getD m0).slots?.getD []) none none
          rw [hscan] at hps
          dsimp only
          rw [hscan]
          cases pic with
          | none =>
              have hnops : hasPictureSlot (((m0 :: rest).find? (fun m =>
                  match m.name? with
                  | some n => n != "" && strEndsWith n ".Exported.01"
                  | none => false)).getD m0) = false := by
                unfold hasPictureSlot
                simpa using hps.symm
              refine ⟨⟨fun _ => by simp [hnops], fun _ => ⟨_, rfl⟩⟩, ?_⟩
              intro e he
              cases he
              simp [hnops]
          | some p =>
              have hhasps : hasPictureSlot (((m0 :: rest).find? (fun m =>
                  match m.name? with
                  | some n => n != "" && strEndsWith n ".Exported.01"
                  | none => false)).getD m0) = true := by
                unfold hasPictureSlot
                simpa using hps.symm
              refine ⟨⟨?_, ?_⟩, ?_⟩
              · rintro ⟨e, he⟩
                cases he
              · intro hfail
                rw [hhasps] at hfail
                cases hfail
              · intro e he
                cases he

theorem idsFrom_append (evs : List PEvent) (ev : PEvent) (n : Nat)
    (h : idsFrom n evs = true)
    (hid : ev.id = "ev" ++ toString (n + evs.length + 1)) :
    idsFrom n (evs ++ [ev]) = true := by
  induction evs generalizing n with
  | nil =>
      simp only [List.nil_append, idsFrom, Bool.and_eq_true, beq_iff_eq]
      exact ⟨hid, trivial⟩
  | cons a rest ih =>
      simp only [idsFrom, Bool.and_eq_true] at h
      have harith : n + (a :: rest).length + 1 = (n + 1) + rest.length + 1 := by
        simp only [List.length_cons]; omega
      rw [harith] at hid
      simp only [List.cons_append, idsFrom, Bool.and_eq_true]
      exact ⟨h.1, ih (n + 1) h.2 hid⟩

theorem startsNonDecr_append (l : List Int) (x : Int)
    (h : startsNonDecr l = true) (hle : ∀ y ∈ l, y ≤ x) :
    startsNonDecr (l ++ [x]) = true := by
  induction l with
  | nil => rfl
  | cons a rest ih =>
      cases rest with
      | nil =>
          have := hle a (by simp)
          simp [startsNonDecr, this]
      | cons b rest2 =>
          simp only [startsNonDecr, Bool.and_eq_true, decide_eq_true_eq] at h
          have h2 := ih h.2 (fun y hy => hle y (List.mem_cons_of_mem a hy))
          simp only [List.cons_append] at h2 ⊢
          simp only [startsNonDecr, Bool.and_eq_true, decide_eq_true_eq]
          refine ⟨h.1, ?_⟩
          simpa [startsNonDecr] using h2

theorem compLensNonneg_mk (cn : String) (len : Option Int) (nm : Option PyVal)
    (sid srcID : Option String) (er : Option (Int × Int)) (attrs : List PTag)
    (odn : Option String) (pars : Option (List PParamRec))
    (inps : Option (List PComp)) (comps : List PComp) :
    compLensNonneg (.mk cn len nm sid srcID er attrs odn pars inps comps) =
      (decide (0 ≤ len.getD 0) && compsLensNonneg comps) := by
  rw [compLensNonneg.eq_def]

theorem compsLensNonneg_nil : compsLensNonneg [] = true := by
  rw [compsLensNonneg.eq_def]

theorem compsLensNonneg_cons (c : PComp) (rest : List PComp) :
    compsLensNonneg (c :: rest) = (compLensNonneg c && compsLensNonneg rest) := by
  rw [compsLensNonneg.eq_def]

theorem parse_components_ids (tr : Option (Int × Int)) (mm : List (String × PMob))
    (track : Int) :
    ∀ (comps : List PComp) (st : PWalkState),
      idsFrom 0 st.events = true →
      idsFrom 0 (parse_components tr mm track comps st).events = true := by
  refine parse_components.induct tr mm track
    (fun c st => idsFrom 0 st.events = true →
      idsFrom 0 (parse_component tr mm track c st).events = true)
    (fun l st => idsFrom 0 st.events = true →
      idsFrom 0 (parse_components tr mm track l st).events = true)
    ?c1 ?c2 ?c3 ?c4 ?c5 ?c6
  case c1 =>
    intro cn len nm sid srcID er attrs odn pars inps comps st hseq ih h
    rw [parse_component.eq_def]
    dsimp only
    rw [if_pos hseq]
    exact ih h
  case c2 =>
    intro cn len nm sid srcID er attrs odn pars inps comps st hns hsc h
    rw [parse_component.eq_def]
    dsimp only
    rw [if_neg hns, if_pos hsc]
    dsimp only
    refine idsFrom_append _ _ _ h ?_
    simp [PEvent.id]
  case c3 =>
    intro cn len nm sid srcID er attrs odn pars inps comps st hns hnc hop h
    rw [parse_component.eq_def]
    dsimp only
    rw [if_neg hns, if_neg hnc, if_pos hop]
    dsimp only
    refine idsFrom_append _ _ _ h ?_
    simp [PEvent.id]
  case c4 =>
    intro cn len nm sid srcID er attrs odn pars inps comps st hns hnc hno h
    rw [parse_component.eq_def]
    dsimp only
    rw [if_neg hns, if_neg hnc, if_neg hno]
    exact h
  case c5 => intro st h; exact h
  case c6 =>
    intro c rest st ih1 ih2 h
    rw [parse_components.eq_def]
    dsimp only
    exact ih2 (ih1 h)

theorem parse_components_starts (tr : Option (Int × Int))
    (mm : List (String × PMob)) (track : Int) :
    ∀ (comps : List PComp) (st : PWalkState),
      compsLensNonneg comps = true →
      startsNonDecr (st.events.map PEvent.start) = true →
      (∀ e ∈ st.events, e.start ≤ st.offset) →
      startsNonDecr ((parse_components tr mm track comps st).events.map
        PEvent.start) = true ∧
      (∀ e ∈ (parse_components tr mm track comps st).events,
        e.start ≤ (parse_components tr mm track comps st).offset) := by
  refine parse_components.induct tr mm track
    (fun c st => compLensNonneg c = true →
      startsNonDecr (st.events.map PEvent.start) = true →
      (∀ e ∈ st.events, e.start ≤ st.offset) →
      startsNonDecr ((parse_component tr mm track c st).events.map
        PEvent.start) = true ∧
      (∀ e ∈ (parse_component tr mm track c st).events,
        e.start ≤ (parse_component tr mm track c st).offset))
    (fun l st => compsLensNonneg l = true →
      startsNonDecr (st.events.map PEvent.start) = true →
      (∀ e ∈ st.events, e.start ≤ st.offset) →
      startsNonDecr ((parse_components tr mm track l st).events.map
        PEvent.start) = true ∧
      (∀ e ∈ (parse_components tr mm track l st).events,
        e.start ≤ (parse_components tr mm track l st).offset))
    ?c1 ?c2 ?c3 ?c4 ?c5 ?c6
  case c1 =>
    intro cn len nm sid srcID er attrs odn pars inps comps st hseq ih hlen hnd hle
    rw [parse_component.eq_def]
    dsimp only
    rw [if_pos hseq]
    rw [compLensNonneg_mk] at hlen
    simp only [Bool.and_eq_true] at hlen
    exact ih hlen.2 hnd hle
  case c2 =>
    intro cn len nm sid srcID er attrs odn pars inps comps st hns hsc hlen hnd hle
    rw [parse_component.eq_def]
    dsimp only
    rw [if_neg hns, if_pos hsc]
    dsimp only
    rw [compLensNonneg_mk] at hlen
    simp only [Bool.and_eq_true, decide_eq_true_eq] at hlen
    have hdur : (0:Int) ≤ len.getD 0 := hlen.1
    constructor
    · rw [List.map_append]
      simp only [List.map_cons, List.map_nil, PEvent.start]
      refine startsNonDecr_append _ _ hnd ?_
      intro y hy
      simp only [List.mem_map] at hy
      obtain ⟨e, he, rfl⟩ := hy
      exact hle e he
    · intro e he
      rw [List.mem_append] at he
      cases he with
      | inl h => exact le_trans (hle e h) (by omega)
      | inr h =>
          simp only [List.mem_singleton] at h
          subst h
          simp only [PEvent.start]
          omega
  case c3 =>
    intro cn len nm sid srcID er attrs odn pars inps comps st hns hnc hop hlen hnd hle
    rw [parse_component.eq_def]
    dsimp only
    rw [if_neg hns, if_neg hnc, if_pos hop]
    dsimp only
    rw [compLensNonneg_mk] at hlen
    simp only [Bool.and_eq_true, decide_eq_true_eq] at hlen
    have hdur : (0:Int) ≤ len.getD 0 := hlen.1
    constructor
    · rw [List.map_append]
      simp only [List.map_cons, List.map_nil, PEvent.start]
      refine startsNonDecr_append _ _ hnd ?_
      intro y hy
      simp only [List.mem_map] at hy
      obtain ⟨e, he, rfl⟩ := hy
      exact hle e he
    · intro e he
      rw [List.mem_append] at he
      cases he with
      | inl h => exact le_trans (hle e h) (by omega)
      | inr h =>
          simp only [List.mem_singleton] at h
          subst h
          simp only [PEvent.start]
          omega
  case c4 =>
    intro cn len nm sid srcID er attrs odn pars inps comps st hns hnc hno hlen hnd hle
    rw [parse_component.eq_def]
    dsimp only
    rw [if_neg hns, if_neg hnc, if_neg hno]
    exact ⟨hnd, hle⟩
  case c5 => intro st hlen hnd hle; exact ⟨hnd, hle⟩
  case c6 =>
    intro c rest st ih1 ih2 hlen hnd hle
    rw [compsLensNonneg_cons] at hlen
    simp only [Bool.and_eq_true] at hlen
    rw [parse_components.eq_def]
    dsimp only
    obtain ⟨h1, h2⟩ := ih1 hlen.1 hnd hle
    exact ih2 hlen.2 h1 h2

/-- C2 (amended): every event the walker appends is labelled with the 1-based
production-order index — but as "ev" ++ index with no underscore and no
zero-padding (so "ev1", "ev2", ...) — and, provided every component of the
tree declares a non-negative length, the events' timeline start offsets are
non-decreasing in production order. -/
theorem c2_event_ids_and_order (seq : PComp) (tr : Option (Int × Int))
    (mm : List (String × PMob)) (track : Int)
    (hlen : compLensNonneg seq = true) :
    idsFrom 0 (parse_sequence seq tr mm track emptyPWalkState).events = true ∧
    startsNonDecr ((parse_sequence seq tr mm track emptyPWalkState).events.map
      PEvent.start) = true := by
  have hcomps : compsLensNonneg (pcompComponents seq) = true := by
    cases seq with
    | mk cn len nm sid srcID er attrs odn pars inps comps =>
        rw [compLensNonneg_mk] at hlen
        simp only [Bool.and_eq_true] at hlen
        exact hlen.2
  constructor
  · exact parse_components_ids tr mm track (pcompComponents seq) emptyPWalkState rfl
  · exact (parse_components_starts tr mm track (pcompComponents seq) emptyPWalkState
      hcomps rfl (by intro e he; simp [emptyPWalkState] at he)).1

/-- C2 witness: the single-SourceClip sequence has non-negative lengths and
its walk yields ids in production order with non-decreasing starts. -/
theorem c2_event_ids_and_order_witness :
    compLensNonneg c2SequenceComp = true ∧
    (idsFrom 0 (parse_sequence c2SequenceComp none [] 1 emptyPWalkState).events = true ∧
     startsNonDecr ((parse_sequence c2SequenceComp none [] 1
       emptyPWalkState).events.map PEvent.start) = true) := by
  have h : compLensNonneg c2SequenceComp = true := by
    show compLensNonneg (.mk "Sequence" (some 100) none none none none [] none
      none none [c2SourceClipComp]) = true
    rw [compLensNonneg_mk, compsLensNonneg_cons, compsLensNonneg_nil]
    show (decide ((0:Int) ≤ 100) && (compLensNonneg c2SourceClipComp && true)) = true
    have h2 : compLensNonneg c2SourceClipComp = true := by
      show compLensNonneg (.mk "SourceClip" (some 100) none none none none []
        none none none []) = true
      rw [compLensNonneg_mk, compsLensNonneg_nil]
      decide
    rw [h2]
    decide
  exact ⟨h, c2_event_ids_and_order c2SequenceComp none [] 1 h⟩

/-- C2 counterexample: the walker labels the first clip of the concrete
one-SourceClip sequence "ev1" — with no underscore and no 4-digit padding —
so the produced id fails the spec's mandated pattern (the validator's own
event-id pattern test). -/
theorem c2_event_id_format_counterexample :
    (parse_sequence c2SequenceComp none [] 1 emptyPWalkState).events.map
      PEvent.id = ["ev1"] ∧ evIdPattern "ev1" = false :=
  ⟨rfl, by decide⟩

theorem jHas_of_required (keys : List String) (kvs : List (String × Json))
    (p : List PathElem) (h : requiredErrs keys kvs p = []) (k : String)
    (hk : k ∈ keys) : jHas kvs k = true := by
  unfold requiredErrs at h
  rw [List.filterMap_eq_nil_iff] at h
  have hkk := h k hk
  by_cases hh : jHas kvs k = true
  · exact hh
  · rw [if_neg hh] at hkk; cases hkk

theorem jGet_of_jHas (kvs : List (String × Json)) (k : String)
    (h : jHas kvs k = true) : ∃ v, jGet kvs k = some v := by
  unfold jHas at h
  rw [List.any_eq_true] at h
  have hs : (kvs.find? (fun kv => kv.1 == k)).isSome = true := by
    rw [List.find?_isSome]; exact h
  obtain ⟨kv, hfind⟩ := Option.isSome_iff_exists.mp hs
  exact ⟨kv.2, by unfold jGet; rw [hfind]; rfl⟩

theorem isEmpty_false_of_jHas (kvs : List (String × Json)) (k : String)
    (h : jHas kvs k = true) : kvs.isEmpty = false := by
  cases kvs with
  | nil => simp [jHas] at h
  | cons a rest => rfl

theorem enum_flatMap_nil {α β : Type} (l : List α) (f : Nat × α → List β)
    (h : (l.enum).flatMap f = []) :
    ∀ x ∈ l, ∃ i, f (i, x) = [] := by
  rw [List.flatMap_eq_nil_iff] at h
  intro x hx
  obtain ⟨i, hi⟩ := List.get?_of_mem hx
  rw [List.get?_eq_getElem?] at hi
  exact ⟨i, h (i, x) (List.mk_mem_enum_iff_getElem?.mpr hi)⟩

theorem bnot_decide_lt (a b : ℚ) : (!decide (b < a)) = decide (a ≤ b) := by
  by_cases hab : a ≤ b
  · simp [hab, not_lt.mpr hab]
  · simp [hab, lt_of_not_le hab]

theorem pyTimesCheck_nums (times : List Json)
    (h : ∀ t ∈ times, t.isNum = true) :
    pyTimesCheck times = .ok (timesNonDecreasing times) := by
  induction times with
  | nil => rfl
  | cons a rest ih =>
      cases rest with
      | nil =>
          have ha := h a (by simp)
          cases a with
          | num q => rfl
          | null => simp [Json.isNum] at ha
          | bool b => simp [Json.isNum] at ha
          | str s => simp [Json.isNum] at ha
          | arr l => simp [Json.isNum] at ha
          | obj kvs => simp [Json.isNum] at ha
      | cons b rest2 =>
          have ha := h a (by simp)
          have hb := h b (by simp)
          cases a with
          | num qa =>
              cases b with
              | num qb =>
                  have ihr := ih (fun t ht => h t (List.mem_cons_of_mem _ ht))
                  rw [pyTimesCheck]
                  rw [show pyLtJ (Json.num qb) (Json.num qa) =
                    .ok (decide (qb < qa)) from rfl]
                  rw [ihr]
                  show Except.ok (!decide (qb < qa) &&
                    timesNonDecreasing (Json.num qb :: rest2)) = _
                  rw [bnot_decide_lt]
                  rfl
              | null => simp [Json.isNum] at hb
              | bool c => simp [Json.isNum] at hb
              | str s => simp [Json.isNum] at hb
              | arr l => simp [Json.isNum] at hb
              | obj kvs => simp [Json.isNum] at hb
          | null => simp [Json.isNum] at ha
          | bool c => simp [Json.isNum] at ha
          | str s => simp [Json.isNum] at ha
          | arr l => simp [Json.isNum] at ha
          | obj kvs => simp [Json.isNum] at ha

theorem checkKeyframe_inv (p : List PathElem) (j : Json)
    (h : checkKeyframe p j = []) :
    ∃ kvs, j = .obj kvs ∧ ∃ q, jGet kvs "t" = some (.num q) := by
  cases j with
  | obj kvs =>
      refine ⟨kvs, rfl, ?_⟩
      unfold checkKeyframe at h
      simp only [List.append_eq_nil] at h
      obtain ⟨⟨⟨hreq, hadd⟩, ht⟩, hv⟩ := h
      have hhas := jHas_of_required _ kvs p hreq "t" (by simp)
      obtain ⟨v, hvt⟩ := jGet_of_jHas kvs "t" hhas
      rw [hvt] at ht
      simp only [List.append_eq_nil] at ht
      cases v with
      | num q => exact ⟨q, hvt⟩
      | null => simp [Json.isNum] at ht
      | bool b => simp [Json.isNum] at ht
      | str s => simp [Json.isNum] at ht
      | arr l => simp [Json.isNum] at ht
      | obj kk => simp [Json.isNum] at ht
  | null => simp [checkKeyframe] at h
  | bool b => simp [checkKeyframe] at h
  | num q => simp [checkKeyframe] at h
  | str s => simp [checkKeyframe] at h
  | arr l => simp [checkKeyframe] at h

theorem kfTimes_nums (items : List Json)
    (h : ∀ x ∈ items, ∃ p, checkKeyframe p x = []) :
    ∀ t ∈ kfTimes items, t.isNum = true := by
  intro t ht
  unfold kfTimes at ht
  rw [List.mem_filterMap] at ht
  obtain ⟨k, hk, hfk⟩ := ht
  obtain ⟨p, hck⟩ := h k hk
  obtain ⟨kvs, rfl, q, hq⟩ := checkKeyframe_inv p k hck
  simp only at hfk
  rw [hq] at hfk
  cases hfk
  rfl

theorem checkEffect_inv (p : List PathElem) (j : Json)
    (h : checkEffect p j = []) :
    ∃ fkvs, j = .obj fkvs ∧ fkvs.isEmpty = false ∧
      ∃ kkvs, jGet fkvs "keyframes" = some (.obj kkvs) ∧
        ∀ pr ∈ kkvs, ∃ items, pr.2 = Json.arr items ∧
          ∀ t ∈ kfTimes items, t.isNum = true := by
  cases j with
  | obj fkvs =>
      refine ⟨fkvs, rfl, ?_, ?_⟩
      · unfold checkEffect at h
        simp only [List.append_eq_nil] at h
        exact isEmpty_false_of_jHas fkvs "name"
          (jHas_of_required _ fkvs p h.1.1.1.1.1.1 "name" (by simp))
      · unfold checkEffect at h
        simp only [List.append_eq_nil] at h
        obtain ⟨⟨⟨⟨⟨⟨hreq, hadd⟩, hname⟩, honf⟩, hpar⟩, hkf⟩, hext⟩ := h
        have hhas := jHas_of_required _ fkvs p hreq "keyframes" (by simp)
        obtain ⟨v, hvk⟩ := jGet_of_jHas fkvs "keyframes" hhas
        rw [hvk] at hkf
        cases v with
        | obj kkvs =>
            refine ⟨kkvs, hvk, ?_⟩
            intro pr hpr
            rw [List.flatMap_eq_nil_iff] at hkf
            have hpr2 := hkf pr hpr
            cases hprv : pr.2 with
            | arr items =>
                rw [hprv] at hpr2
                refine ⟨items, rfl, ?_⟩
                refine kfTimes_nums items ?_
                intro x hx
                obtain ⟨i, hi⟩ := enum_flatMap_nil items _ hpr2 x hx
                exact ⟨_, hi⟩
            | null => rw [hprv] at hpr2; cases hpr2
            | bool b => rw [hprv] at hpr2; cases hpr2
            | num q => rw [hprv] at hpr2; cases hpr2
            | str s => rw [hprv] at hpr2; cases hpr2
            | obj kk => rw [hprv] at hpr2; cases hpr2
        | null => cases hkf
        | bool b => cases hkf
        | num q => cases hkf
        | str s => cases hkf
        | arr l => cases hkf
  | null => simp [checkEffect] at h
  | bool b => simp [checkEffect] at h
  | num q => simp [checkEffect] at h
  | str s => simp [checkEffect] at h
  | arr l => simp [checkEffect] at h

theorem checkOriginal_inv (p : List PathElem) (j : Json)
    (h : checkOriginal p j = []) :
    ∃ okvs, j = .obj okvs ∧ okvs.isEmpty = false ∧
      ∃ chain, jGet okvs "umid_chain" = some (.arr chain) := by
  cases j with
  | obj okvs =>
      unfold checkOriginal at h
      simp only [List.append_eq_nil] at h
      obtain ⟨⟨⟨⟨⟨⟨⟨⟨⟨hreq, hadd⟩, hpath⟩, humid⟩, htape⟩, hdisk⟩, htc⟩, hrate⟩, hdrop⟩, hdur⟩ := h
      refine ⟨okvs, rfl, isEmpty_false_of_jHas okvs "path"
        (jHas_of_required _ okvs p hreq "path" (by simp)), ?_⟩
      have hhas := jHas_of_required _ okvs p hreq "umid_chain" (by simp)
      obtain ⟨v, hvu⟩ := jGet_of_jHas okvs "umid_chain" hhas
      rw [hvu] at humid
      cases v with
      | arr chain => exact ⟨chain, hvu⟩
      | null => cases humid
      | bool b => cases humid
      | num q => cases humid
      | str s => cases humid
      | obj kk => cases humid
  | null => simp [checkOriginal] at h
  | bool b => simp [checkOriginal] at h
  | num q => simp [checkOriginal] at h
  | str s => simp [checkOriginal] at h
  | arr l => simp [checkOriginal] at h

theorem checkSource_inv (p : List PathElem) (j : Json)
    (h : checkSource p j = []) :
    ∃ skvs, j = .obj skvs ∧ skvs.isEmpty = false ∧
      ∃ origJ, jGet skvs "original" = some origJ ∧
        ∃ okvs, origJ = .obj okvs ∧ okvs.isEmpty = false ∧
          ∃ chain, jGet okvs "umid_chain" = some (.arr chain) := by
  cases j with
  | obj skvs =>
      unfold checkSource at h
      simp only [List.append_eq_nil] at h
      obtain ⟨⟨⟨⟨hreq, hadd⟩, horig⟩, hder⟩, hexts⟩ := h
      have hhas := jHas_of_required _ skvs p hreq "original" (by simp)
      obtain ⟨origJ, hvo⟩ := jGet_of_jHas skvs "original" hhas
      rw [hvo] at horig
      exact ⟨skvs, rfl, isEmpty_false_of_jHas skvs "original" hhas,
        origJ, hvo, checkOriginal_inv _ origJ horig⟩
  | null => simp [checkSource] at h
  | bool b => simp [checkSource] at h
  | num q => simp [checkSource] at h
  | str s => simp [checkSource] at h
  | arr l => simp [checkSource] at h

theorem checkEvent_inv (p : List PathElem) (ev : Json)
    (h : checkEvent p ev = []) :
    ∃ ekvs, ev = .obj ekvs ∧
      (∃ effJ, jGet ekvs "effect" = some effJ ∧
        checkEffect (p ++ [.key "effect"]) effJ = []) ∧
      (∃ srcJ, jGet ekvs "source" = some srcJ ∧
        checkEventSource (p ++ [.key "source"]) srcJ = []) := by
  cases ev with
  | obj ekvs =>
      unfold checkEvent at h
      simp only [List.append_eq_nil] at h
      obtain ⟨⟨⟨⟨⟨⟨hreq, hadd⟩, hid⟩, hts⟩, hlf⟩, hsrc⟩, heff⟩ := h
      have hhasE := jHas_of_required _ ekvs p hreq "effect" (by simp)
      obtain ⟨effJ, hve⟩ := jGet_of_jHas ekvs "effect" hhasE
      rw [hve] at heff
      have hhasS := jHas_of_required _ ekvs p hreq "source" (by simp)
      obtain ⟨srcJ, hvs⟩ := jGet_of_jHas ekvs "source" hhasS
      rw [hvs] at hsrc
      exact ⟨ekvs, rfl, ⟨effJ, hve, heff⟩, ⟨srcJ, hvs, hsrc⟩⟩
  | null => simp [checkEvent] at h
  | bool b => simp [checkEvent] at h
  | num q => simp [checkEvent] at h
  | str s => simp [checkEvent] at h
  | arr l => simp [checkEvent] at h

theorem kfParamLoop_ok (prs : List (String × Json)) (ei : Nat)
    (h : ∀ pr ∈ prs, ∃ items, pr.2 = Json.arr items ∧
      ∀ t ∈ kfTimes items, t.isNum = true) :
    kfParamLoop prs ei =
      (prs.filterMap (fun pr =>
        match pr.2 with
        | .arr items =>
            if items.length > 1 && !(timesNonDecreasing (kfTimes items)) then
              some (kfOrderVErr ei pr.1 (kfTimes items))
            else none
        | _ => none), none) := by
  induction prs with
  | nil => rfl
  | cons pr rest ih =>
      have ihr := ih (fun q hq => h q (List.mem_cons_of_mem _ hq))
      obtain ⟨items, hpr, hnums⟩ := h pr (by simp)
      obtain ⟨pname, arrJ⟩ := pr
      simp only at hpr
      subst hpr
      rw [kfParamLoop.eq_def]
      dsimp only
      by_cases hl : items.length > 1
      · rw [if_pos hl]
        rw [pyTimesCheck_nums (kfTimes items) hnums]
        dsimp only
        by_cases hs : timesNonDecreasing (kfTimes items) = true
        · rw [if_pos hs, ihr]
          simp [List.filterMap_cons, hs]
        · have hs' : timesNonDecreasing (kfTimes items) = false := by
            cases hts : timesNonDecreasing (kfTimes items)
            · rfl
            · exact absurd hts hs
          rw [if_neg hs, ihr]
          dsimp only
          simp [List.filterMap_cons, hs', hl]
      · rw [if_neg hl, ihr]
        rw [List.filterMap_cons]
        dsimp only
        rw [if_neg (show ¬((decide (items.length > 1) &&
          !timesNonDecreasing (kfTimes items)) = true) by simp [hl])]

theorem evBadKf_map (ev : Json) (ei : Nat) :
    (evBadKf ev ei).map (fun tr => kfOrderVErr tr.1 tr.2.1 tr.2.2) =
      (evKeyframes ev).filterMap (fun pr =>
        match pr.2 with
        | .arr items =>
            if items.length > 1 && !(timesNonDecreasing (kfTimes items)) then
              some (kfOrderVErr ei pr.1 (kfTimes items))
            else none
        | _ => none) := by
  unfold evBadKf
  rw [List.map_filterMap]
  refine List.filterMap_congr ?_
  intro pr hpr
  cases hv : pr.2 with
  | arr items =>
      dsimp only
      by_cases hc : (decide (items.length > 1) &&
          !timesNonDecreasing (kfTimes items)) = true
      · rw [if_pos hc, if_pos hc]; rfl
      · rw [if_neg hc, if_neg hc]; rfl
  | null => rfl
  | bool b => rfl
  | num q => rfl
  | str s => rfl
  | obj kk => rfl

theorem evKeyframes_eq (ekvs fkvs kkvs : List (String × Json))
    (heff : jGet ekvs "effect" = some (.obj fkvs))
    (hkf : jGet fkvs "keyframes" = some (.obj kkvs)) :
    evKeyframes (.obj ekvs) = kkvs := by
  unfold evKeyframes
  dsimp only
  rw [heff]
  dsimp only
  rw [hkf]

theorem kfEvLoop_ok (evs : List Json) (ei : Nat)
    (h : ∀ ev ∈ evs, ∃ p, checkEvent p ev = []) :
    kfEvLoop evs ei =
      ((badKfLoop evs ei).map (fun tr => kfOrderVErr tr.1 tr.2.1 tr.2.2), none) := by
  induction evs generalizing ei with
  | nil => rfl
  | cons ev rest ih =>
      obtain ⟨p, hce⟩ := h ev (by simp)
      obtain ⟨ekvs, rfl, ⟨effJ, heff, hceff⟩, ⟨srcJ, hsrc, hcsrc⟩⟩ :=
        checkEvent_inv p ev hce
      obtain ⟨fkvs, rfl, hfne, kkvs, hkf, hkitems⟩ := checkEffect_inv _ effJ hceff
      have ihr := ih (ei + 1) (fun q hq => h q (List.mem_cons_of_mem _ hq))
      rw [kfEvLoop.eq_def]
      dsimp only
      rw [show pyGetD (Json.obj ekvs) "effect" (Json.obj []) = .ok (Json.obj fkvs) by
        unfold pyGetD; dsimp only; rw [heff]; rfl]
      dsimp only
      rw [if_pos (show pyTruthy (Json.obj fkvs) = true by
        simp [pyTruthy, hfne])]
      rw [show pyGetD (Json.obj fkvs) "keyframes" (Json.obj []) = .ok (Json.obj kkvs) by
        unfold pyGetD; dsimp only; rw [hkf]; rfl]
      dsimp only
      by_cases hk : kkvs.isEmpty = true
      · have hkk : kkvs = [] := List.isEmpty_iff.mp hk
        subst hkk
        rw [if_neg (show ¬(pyTruthy (Json.obj []) = true) by simp [pyTruthy])]
        rw [show pyItemsPairs (Json.obj []) = .ok [] from rfl]
        dsimp only
        rw [show kfParamLoop [] ei = ([], none) from rfl]
        dsimp only
        rw [ihr]
        dsimp only
        rw [show badKfLoop (Json.obj ekvs :: rest) ei =
          evBadKf (Json.obj ekvs) ei ++ badKfLoop rest (ei + 1) from rfl]
        rw [show evBadKf (Json.obj ekvs) ei = [] by
          unfold evBadKf
          rw [evKeyframes_eq ekvs fkvs [] heff hkf]
          rfl]
        simp
      · have hk' : pyTruthy (Json.obj kkvs) = true := by
          simp [pyTruthy]
          intro hc
          rw [hc] at hk
          simp at hk
        rw [if_pos hk']
        rw [show pyItemsPairs (Json.obj kkvs) = .ok kkvs from rfl]
        dsimp only
        rw [kfParamLoop_ok kkvs ei hkitems]
        dsimp only
        rw [ihr]
        dsimp only
        rw [show badKfLoop (Json.obj ekvs :: rest) ei =
          evBadKf (Json.obj ekvs) ei ++ badKfLoop rest (ei + 1) from rfl]
        rw [List.map_append]
        rw [evBadKf_map (Json.obj ekvs) ei]
        rw [evKeyframes_eq ekvs fkvs kkvs heff hkf]

theorem canonical_schema_inv (d : Json) (h : canonical_schema_errors d = []) :
    ∃ kvs, d = .obj kvs ∧ ∃ tkvs, jGet kvs "timeline" = some (.obj tkvs) ∧
      ∃ items, jGet tkvs "events" = some (.arr items) ∧
        ∀ ev ∈ items, ∃ p, checkEvent p ev = [] := by
  cases d with
  | obj kvs =>
      unfold canonical_schema_errors at h
      simp only [List.append_eq_nil] at h
      obtain ⟨⟨⟨hreq, hadd⟩, hproj⟩, htl⟩ := h
      have hhas := jHas_of_required _ kvs [] hreq "timeline" (by simp)
      obtain ⟨tlJ, hvt⟩ := jGet_of_jHas kvs "timeline" hhas
      rw [hvt] at htl
      cases tlJ with
      | obj tkvs =>
          unfold checkTimeline at htl
          dsimp only at htl
          simp only [List.append_eq_nil] at htl
          obtain ⟨⟨⟨⟨treq, tadd⟩, tname⟩, tstc⟩, tev⟩ := htl
          have hhasE := jHas_of_required _ tkvs _ treq "events" (by simp)
          obtain ⟨evJ, hve⟩ := jGet_of_jHas tkvs "events" hhasE
          rw [hve] at tev
          cases evJ with
          | arr items =>
              refine ⟨kvs, rfl, tkvs, hvt, items, hve, ?_⟩
              intro ev hev
              obtain ⟨i, hi⟩ := enum_flatMap_nil items _ tev ev hev
              exact ⟨_, hi⟩
          | null => cases tev
          | bool b => cases tev
          | num q => cases tev
          | str s => cases tev
          | obj oo => cases tev
      | null => simp [checkTimeline] at htl
      | bool b => simp [checkTimeline] at htl
      | num q => simp [checkTimeline] at htl
      | str s => simp [checkTimeline] at htl
      | arr l => simp [checkTimeline] at htl
  | null => simp [canonical_schema_errors] at h
  | bool b => simp [canonical_schema_errors] at h
  | num q => simp [canonical_schema_errors] at h
  | str s => simp [canonical_schema_errors] at h
  | arr l => simp [canonical_schema_errors] at h

theorem keyframe_order_checks_schema_valid (d : Json)
    (h : canonical_schema_errors d = []) :
    keyframe_order_checks d = outOfOrderKeyframeErrs d := by
  obtain ⟨kvs, rfl, tkvs, htl, items, hev, hall⟩ := canonical_schema_inv _ h
  unfold keyframe_order_checks
  rw [show pyGetD (Json.obj kvs) "timeline" (Json.obj []) = .ok (Json.obj tkvs) by
    unfold pyGetD; dsimp only; rw [htl]; rfl]
  dsimp only
  rw [show pyGetD (Json.obj tkvs) "events" (Json.arr []) = .ok (Json.arr items) by
    unfold pyGetD; dsimp only; rw [hev]; rfl]
  dsimp only
  rw [show pyEnumerate (Json.arr items) = .ok items from rfl]
  dsimp only
  rw [kfEvLoop_ok items 0 hall]
  dsimp only
  unfold outOfOrderKeyframeErrs outOfOrderKeyframeBad
  rw [show docEvents (Json.obj kvs) = items by
    unfold docEvents docTimeline
    dsimp only
    rw [htl]
    simp only [Option.getD_some]
    rw [hev]]

theorem umidEventErrs_ok_of_valid (ev : Json) (ei : Nat) (p : List PathElem)
    (hce : checkEvent p ev = []) :
    ∃ es, umidEventErrs ev ei = .ok es ∧
      ∀ e ∈ es, e.code = ReasonCodes.INVALID_UMID_CHAIN := by
  obtain ⟨ekvs, rfl, ⟨effJ, heff, hceff⟩, ⟨srcJ, hsrc, hcsrc⟩⟩ :=
    checkEvent_inv p ev hce
  unfold umidEventErrs
  rw [show pyGetD (Json.obj ekvs) "source" Json.null = .ok srcJ by
    unfold pyGetD; dsimp only; rw [hsrc]; rfl]
  dsimp only
  unfold checkEventSource at hcsrc
  by_cases hnull : srcJ.isNull = true
  · have hsn : srcJ = Json.null := by
      cases srcJ <;> simp [Json.isNull] at hnull ⊢
    subst hsn
    rw [if_neg (show ¬((pyTruthy Json.null && Json.null.isObj) = true) by
      simp [pyTruthy, Json.isObj])]
    exact ⟨[], rfl, by intro e he; cases he⟩
  · rw [if_neg hnull] at hcsrc
    by_cases hcs : checkSource (p ++ [.key "source"]) srcJ = []
    · obtain ⟨skvs, rfl, hsne, origJ, horig, okvs, rfl, hone, chain, hchain⟩ :=
        checkSource_inv _ srcJ hcs
      rw [if_pos (show (pyTruthy (Json.obj skvs) && (Json.obj skvs).isObj) = true by
        simp [pyTruthy, Json.isObj, hsne])]
      rw [show pyGetD (Json.obj skvs) "original" Json.null = .ok (Json.obj okvs) by
        unfold pyGetD; dsimp only; rw [horig]; rfl]
      dsimp only
      rw [if_pos (show ((Json.obj okvs).isObj && pyTruthy (Json.obj okvs)) = true by
        simp [pyTruthy, Json.isObj, hone])]
      rw [show pyGetD (Json.obj okvs) "umid_chain" (Json.arr []) = .ok (Json.arr chain) by
        unfold pyGetD; dsimp only; rw [hchain]; rfl]
      dsimp only
      refine ⟨_, rfl, ?_⟩
      intro e he
      rw [List.mem_filterMap] at he
      obtain ⟨it, hit, hfe⟩ := he
      cases hv : it.2 with
      | str u =>
          rw [hv] at hfe
          dsimp only at hfe
          by_cases hu : (pyStrip u == "") = true
          · rw [if_pos hu] at hfe
            cases hfe
            rfl
          · rw [if_neg hu] at hfe
            cases hfe
      | null => rw [hv] at hfe; cases hfe; rfl
      | bool b => rw [hv] at hfe; cases hfe; rfl
      | num q => rw [hv] at hfe; cases hfe; rfl
      | arr l => rw [hv] at hfe; cases hfe; rfl
      | obj kk => rw [hv] at hfe; cases hfe; rfl
    · rw [if_neg hcs] at hcsrc
      cases hcsrc

theorem umidEvLoop_ok_of_valid (evs : List Json) (ei : Nat)
    (h : ∀ ev ∈ evs, ∃ p, checkEvent p ev = []) :
    ∃ es, umidEvLoop evs ei = .ok es ∧
      ∀ e ∈ es, e.code = ReasonCodes.INVALID_UMID_CHAIN := by
  induction evs generalizing ei with
  | nil => exact ⟨[], rfl, by intro e he; cases he⟩
  | cons ev rest ih =>
      obtain ⟨p, hce⟩ := h ev (by simp)
      obtain ⟨here, hh, hhc⟩ := umidEventErrs_ok_of_valid ev ei p hce
      obtain ⟨there, ht, htc⟩ :=
        ih (ei + 1) (fun q hq => h q (List.mem_cons_of_mem _ hq))
      refine ⟨here ++ there, ?_, ?_⟩
      · rw [umidEvLoop.eq_def]
        dsimp only
        rw [hh]
        dsimp only
        rw [ht]
      · intro e he
        rw [List.mem_append] at he
        cases he with
        | inl h2 => exact hhc e h2
        | inr h2 => exact htc e h2

theorem umid_chain_checks_schema_valid (d : Json)
    (h : canonical_schema_errors d = []) :
    umid_chain_checks d = .ok (umidErrsOf d) ∧
      ∀ e ∈ umidErrsOf d, e.code = ReasonCodes.INVALID_UMID_CHAIN := by
  obtain ⟨kvs, rfl, tkvs, htl, items, hev, hall⟩ := canonical_schema_inv _ h
  obtain ⟨es, hok, hcodes⟩ := umidEvLoop_ok_of_valid items 0 hall
  have hu : umid_chain_checks (Json.obj kvs) = .ok es := by
    unfold umid_chain_checks
    rw [show pyGetD (Json.obj kvs) "timeline" (Json.obj []) = .ok (Json.obj tkvs) by
      unfold pyGetD; dsimp only; rw [htl]; rfl]
    dsimp only
    rw [show pyGetD (Json.obj tkvs) "events" (Json.arr []) = .ok (Json.arr items) by
      unfold pyGetD; dsimp only; rw [hev]; rfl]
    dsimp only
    exact hok
  have he : umidErrsOf (Json.obj kvs) = es := by
    unfold umidErrsOf
    rw [hu]
  constructor
  · rw [hu, he]
  · rw [he]
    exact hcodes

/-- C7 (amended): on every schema-valid document the validator returns a
report whose error list is exactly one KEYFRAME_TIME_ORDER entry per
out-of-order keyframe list (at that parameter's JSON path, in event order)
followed by the UMID-chain entries; `ok` is false whenever some keyframe
list is out of order; but the report is NOT limited to the keyframe code —
every error is either CANON-REQ-037 or CANON-REQ-028, and the latter can
co-occur (empty-string UMIDs pass the schema yet are flagged), refuting
the spec's "no error of any other code". -/
theorem c7_keyframe_order_errors (d : Json)
    (h : canonical_schema_errors d = []) :
    ∃ r, validate_canonical_json d = .ok r ∧
      r.errors = outOfOrderKeyframeErrs d ++ umidErrsOf d ∧
      r.ok = r.errors.isEmpty ∧
      ((outOfOrderKeyframeBad d).isEmpty = false → r.ok = false) ∧
      (∀ e ∈ r.errors, e.code = ReasonCodes.KEYFRAME_TIME_ORDER ∨
        e.code = ReasonCodes.INVALID_UMID_CHAIN) := by
  have hkf := keyframe_order_checks_schema_valid d h
  obtain ⟨hum, humc⟩ := umid_chain_checks_schema_valid d h
  have hrun : run_additional_validations d =
      .ok (outOfOrderKeyframeErrs d ++ umidErrsOf d) := by
    unfold run_additional_validations
    dsimp only
    rw [hum]
    dsimp only
    rw [hkf]
  unfold validate_canonical_json
  rw [h, hrun]
  simp only [List.map_nil, List.nil_append, List.length_nil, Nat.zero_add]
  refine ⟨_, rfl, rfl, rfl, ?_, ?_⟩
  · intro hb
    cases hbad : outOfOrderKeyframeBad d with
    | nil => rw [hbad] at hb; simp at hb
    | cons a l =>
        show (outOfOrderKeyframeErrs d ++ umidErrsOf d).isEmpty = false
        unfold outOfOrderKeyframeErrs
        rw [hbad]
        simp
  · intro e he
    rw [List.mem_append] at he
    cases he with
    | inl h2 =>
        left
        unfold outOfOrderKeyframeErrs at h2
        rw [List.mem_map] at h2
        obtain ⟨tr, _, rfl⟩ := h2
        rfl
    | inr h2 => exact Or.inr (humc e h2)

/-- C7 witness: the amended theorem applied to the concrete schema-valid
document with an out-of-order keyframe list and an empty UMID entry. -/
theorem c7_keyframe_order_errors_witness :
    canonical_schema_errors c7Doc = [] ∧
    (∃ r, validate_canonical_json c7Doc = .ok r ∧
      r.errors = outOfOrderKeyframeErrs c7Doc ++ umidErrsOf c7Doc ∧
      r.ok = r.errors.isEmpty ∧
      ((outOfOrderKeyframeBad c7Doc).isEmpty = false → r.ok = false) ∧
      (∀ e ∈ r.errors, e.code = ReasonCodes.KEYFRAME_TIME_ORDER ∨
        e.code = ReasonCodes.INVALID_UMID_CHAIN)) := by
  have h : canonical_schema_errors c7Doc = [] := by decide
  exact ⟨h, c7_keyframe_order_errors c7Doc h⟩

/-- C7 counterexample: a schema-valid document whose only out-of-order
keyframe list sits beside an empty-string UMID entry; the report flags the
keyframe list with CANON-REQ-037 but ALSO carries a CANON-REQ-028 error —
an error of another code, contradicting the claim. -/
theorem c7_extra_code_counterexample :
    canonical_schema_errors c7Doc = [] ∧
    (outOfOrderKeyframeBad c7Doc).isEmpty = false ∧
    reportOk? (validate_canonical_json c7Doc) = some false ∧
    reportCodes? (validate_canonical_json c7Doc) =
      some [ReasonCodes.KEYFRAME_TIME_ORDER, ReasonCodes.INVALID_UMID_CHAIN] := by
  refine ⟨by decide, by decide, by decide, by decide⟩
